import Mathlib

/-!
Mulch: SSH proxy authentication and VM controllers.

A shallow embedding of `cmd/mulchd/server/ssh_server.go` and
`cmd/mulchd/controllers/vm.go`.

Conventions of the embedding:

* a Go `string` is a Lean `String`; a Go `error` is an `Option String` holding
  the text of `err.Error()`; a Go `(value, error)` pair whose value is read only
  when the error is nil is an `Except String value`;
* a Go pointer that the code compares with nil or may read through while nil is
  an `Option`;
* the code outside the embedded files (the `server` package, the libraries, the
  network) is a record of transition functions on an arbitrary world type `σ`;
  every call to one of them appends an `Event` to the trace of the run;
* `defer` is `M.deferred`: the deferred call runs when the rest of the function
  has returned or panicked.
-/

namespace Mulch

/-! ## Data model -/

/-- Identity of a VM: `server.VMName`. -/
structure VMName where
  Name : String
  Revision : Int
  deriving DecidableEq, Repr

/-- Modelled from the spec: the constant `server.RevisionNone`, the sentinel
revision "no concrete revision" (`-1`), declared outside the embedded files. -/
def RevisionNone : Int := -1

/-- A user action of a VM: `server.VMDoAction`. -/
structure VMDoAction where
  Name : String
  ScriptURL : String
  User : String
  Description : String
  FromConfig : Bool
  deriving DecidableEq, Repr

/-- A domain served by a VM. -/
structure Domain where
  Name : String
  deriving DecidableEq, Repr

/-- A Go `map[string]*VMDoAction`: keys are unique. -/
abbrev DoActionMap := AList (fun _ : String => VMDoAction)

/-- The fields of `server.VMConfig` the controllers use. -/
structure VMConfig where
  Name : String
  Hostname : String
  Seed : String
  AppUser : String
  FileContent : String
  RestoreBackup : String
  CPUCount : Nat
  RAMSize : Nat
  DiskSize : Nat
  BackupDiskSize : Nat
  Domains : List Domain
  DoActions : DoActionMap
  deriving DecidableEq

/-- The fields of `server.VM` the controllers and the proxy use. `WIP` is the
string-typed work-in-progress marker; `SuperUser` is `vm.App.Config.MulchSuperUser`. -/
structure VM where
  Config : VMConfig
  AuthorKey : String
  LastIP : String
  Locked : Bool
  WIP : String
  SecretUUID : String
  MulchSuperUserSSHKey : String
  SuperUser : String
  AssignedIPv4 : String
  AssignedMAC : String
  InitDate : Int
  LastRebuildDuration : Int
  LastRebuildDowntime : Int
  deriving DecidableEq

/-- A lookup result of the VM registry: `server.VMDatabaseEntry`. -/
structure VMDatabaseEntry where
  Name : VMName
  VM : Option VM
  Active : Bool
  deriving DecidableEq

/-- An in-flight action: `server.Operation`. -/
structure Operation where
  Origin : String
  Action : String
  Ressource : String
  RessourceName : String
  deriving DecidableEq, Repr

/-- A registered API key; the code reads its `Comment` only. -/
structure APIKey where
  Comment : String
  deriving DecidableEq, Repr

/-- An `ssh.AuthMethod`, identified by the key pair it was built from. -/
structure AuthMethod where
  pair : String
  deriving DecidableEq, Repr

/-- The host key policy of an `ssh.ClientConfig`. -/
inductive HostKeyCallback where
  | unset
  | InsecureIgnoreHostKey
  deriving DecidableEq, Repr

/-- The fields of `ssh.ClientConfig` the proxy sets. -/
structure ClientConfig where
  User : String
  Auth : List AuthMethod
  HostKeyCallback : HostKeyCallback
  deriving DecidableEq, Repr

/-- An established backend connection (`*ssh.Client`). -/
structure SSHClient where
  id : Nat
  deriving DecidableEq, Repr

/-- The report posted to the callback URL: `common.AsyncCallback`. -/
structure AsyncCallback where
  Action : String
  Target : String
  Success : Bool
  Duration : Int
  Error : String
  deriving DecidableEq, Repr

/-- One task of a `server.Run`. -/
structure RunTask where
  ScriptName : String
  ScriptReader : String
  As : String
  Arguments : String
  deriving DecidableEq, Repr

/-- The fields of `server.Run` and of its `SSHConnection` the controllers set. -/
structure RunSpec where
  Caption : String
  User : String
  Host : String
  Port : Nat
  Auths : List AuthMethod
  Tasks : List RunTask
  deriving DecidableEq, Repr

/-- The answer of `GetVMInfosController`: `common.APIVMInfos`. -/
structure APIVMInfos where
  Name : String
  Revision : Int
  Up : Bool
  Active : Bool
  Seed : String
  CPUCount : Nat
  RAMSizeMB : Nat
  DiskSizeMB : Nat
  AllocatedDiskSizeMB : Nat
  BackupDiskSizeMB : Nat
  Hostname : String
  Domains : List String
  SuperUser : String
  AppUser : String
  AuthorKey : String
  InitDate : Int
  LastRebuildDuration : Int
  LastRebuildDowntime : Int
  Locked : Bool
  AssignedIPv4 : String
  AssignedMAC : String
  deriving DecidableEq, Repr

/-- One line of the answer of `GetVMDoActionsController`:
`common.APIVMDoListEntry`. -/
structure APIVMDoListEntry where
  Name : String
  User : String
  Description : String
  deriving DecidableEq, Repr

/-- What `GetVMInfosController` reads of the volume informations the
hypervisor returns. -/
structure VolumeInfos where
  Allocation : Nat
  deriving DecidableEq, Repr

/-- The kinds of message a controller writes to the request stream. -/
inductive StreamKind where
  | trace
  | info
  | warning
  | error
  | failure
  | success
  deriving DecidableEq, Repr

/-- The handle `Operations.Add` returns and `Operations.Remove` takes. -/
abbrev Handle := Nat

/-- What a run does to the outside: one constructor per collaborator call,
carrying the arguments of the call (and the result where a later call uses it). -/
inductive Event where
  | getByPubKey (pubKey : String)
  | vmdbGetByName (name : String)
  | dial (network : String) (addr : String) (cfg : ClientConfig)
  | log (k : StreamKind)
  | stream (k : StreamKind)
  | setTarget (name : String)
  | parseConfig (content : String)
  | getCountForName (name : String)
  | getEntryByName (name : VMName)
  | getActiveEntryByName (name : String)
  | setActiveRevision (name : String) (revision : Int)
  | vmdbUpdate
  | opAdd (op : Operation) (h : Handle)
  | opRemove (h : Handle)
  | vmBackup (name : VMName) (author : String) (compress : Bool)
  | deleteBackup (backup : String)
  | newVM (conf : VMConfig) (active : Bool) (allowScriptFailure : Bool) (author : String)
  | vmLockUnlock (name : VMName) (locked : Bool)
  | vmStart (name : VMName) (secret : String)
  | vmStop (name : VMName)
  | vmDelete (name : VMName)
  | vmRebuild (name : VMName) (lock : Bool) (author : String)
  | vmIsRunning (name : VMName)
  | getPublicKeyAuth (pair : String)
  | runGo (run : RunSpec)
  | getContentFromURL (url : String)
  | checkDomainsConflicts (domains : List Domain) (name : String)
  | now
  | postForm (url : String) (data : AsyncCallback)
  | respond (status : Nat)
  | startStream
  | setHeader (key : String) (value : String)
  | closeContent (url : String)
  | println (text : String)
  | vmGetDiskName (name : VMName)
  | volumeInfos (disk : String)
  | encodeInfos (data : APIVMInfos)
  | encodeDoList (data : List APIVMDoListEntry)
  deriving DecidableEq

/-! ## Runs: world passing, trace, panic, defer -/

/-- How a Go function ends: it returns a value or it panics. -/
inductive Outcome (α : Type) where
  | ret (a : α)
  | panic (msg : String)
  deriving DecidableEq

/-- A finished run: how it ended, the world it left, what it did. -/
structure Run (σ α : Type) where
  out : Outcome α
  world : σ
  trace : List Event

/-- A Go function body: from the world it starts in to its run. -/
def M (σ α : Type) : Type := σ → Run σ α

namespace M

variable {σ α β : Type}

/-- Return a value, doing nothing. -/
def unit (a : α) : M σ α := fun w => ⟨Outcome.ret a, w, []⟩

/-- Sequencing: a panic of the first part ends the run. -/
def seq (m : M σ α) (f : α → M σ β) : M σ β := fun w =>
  match m w with
  | ⟨Outcome.ret a, w1, t1⟩ =>
    match f a w1 with
    | ⟨o, w2, t2⟩ => ⟨o, w2, t1 ++ t2⟩
  | ⟨Outcome.panic msg, w1, t1⟩ => ⟨Outcome.panic msg, w1, t1⟩

instance : Monad (M σ) where
  pure := unit
  bind := seq

/-- A call to a collaborator `f`, recorded as the event `ev result`. -/
def call (f : σ → α × σ) (ev : α → Event) : M σ α := fun w =>
  ⟨Outcome.ret (f w).1, (f w).2, [ev (f w).1]⟩

/-- An effect that leaves the world as it is (a write to the response or the
log), recorded as the event `e`. -/
def emit (e : Event) : M σ Unit := fun w => ⟨Outcome.ret (), w, [e]⟩

/-- A runtime panic (nil pointer dereference). -/
def panic (msg : String) : M σ α := fun w => ⟨Outcome.panic msg, w, []⟩

/-- Read through a pointer: panics when it is nil. -/
def deref (p : Option α) : M σ α :=
  match p with
  | some a => unit a
  | none => panic "invalid memory address or nil pointer dereference"

/-- The statement `defer cleanup` followed by `body`, the rest of the function:
`cleanup` runs after `body`, whether `body` returned or panicked, and the
function ends as `body` did unless `cleanup` itself panics. -/
def deferred (cleanup : M σ Unit) (body : M σ α) : M σ α := fun w =>
  match body w with
  | ⟨o, w1, t1⟩ =>
    match cleanup w1 with
    | ⟨Outcome.ret _, w2, t2⟩ => ⟨o, w2, t1 ++ t2⟩
    | ⟨Outcome.panic msg, w2, t2⟩ => ⟨Outcome.panic msg, w2, t1 ++ t2⟩

end M

/-! ## Library functions -/

/-- Split a list of characters at every occurrence of `sep`. -/
def splitChars (sep : Char) : List Char → List (List Char)
  | [] => [[]]
  | c :: cs =>
    if c = sep then [] :: splitChars sep cs
    else
      match splitChars sep cs with
      | [] => [[c]]
      | p :: ps => (c :: p) :: ps

/-- Go `strings.Split(s, sep)` for a separator of one character: the pieces of
`s` between the occurrences of `sep`, one more than the occurrences. -/
def strings.Split (s : String) (sep : Char) : List String :=
  (splitChars sep s.toList).map String.mk

/-! ## The SSH proxy (`server/ssh_server.go`) -/

/-- The connection metadata the callback reads: `ssh.ConnMetadata`. -/
structure ConnMetadata where
  User : String
  RemoteAddr : String
  deriving DecidableEq, Repr

/-- The collaborators of the proxy's authentication callback. -/
structure ProxyApp (σ : Type) where
  GetByPubKey : String → σ → Except String (Option APIKey) × σ
  GetByName : String → σ → Except String VM × σ
  Dial : String → String → ClientConfig → σ → Except String SSHClient × σ
  Infof : σ → Unit × σ

/-- The table `clients` of `NewSSHProxyServer`: `map[net.Addr]*ssh.Client`. -/
abbrev Clients := AList (fun _ : String => SSHClient)

/-- The `PublicKeyCallback` of the server configuration built by
`NewSSHProxyServer`. `destAuth` is the credential the enclosing function got
from `GetPublicKeyAuth(SSHSuperUserPair)`; `pubKey` is `pubKey.Marshal()`. The
result is the table `clients` after the call and the returned error
(the returned permissions are always nil). -/
def PublicKeyCallback {σ : Type} (app : ProxyApp σ) (destAuth : AuthMethod)
    (clients : Clients) (c : ConnMetadata) (pubKey : String) :
    M σ (Clients × Option String) := do
  let apiKey ← M.call (app.GetByPubKey pubKey) (fun _ => Event.getByPubKey pubKey)
  match apiKey with
  | Except.error errG => return (clients, some errG)
  | Except.ok none => return (clients, some ("unknown public key for \"" ++ c.User ++ "\""))
  | Except.ok (some _) =>
    match strings.Split c.User '@' with
    | [user, vmName] =>
      let vm ← M.call (app.GetByName vmName) (fun _ => Event.vmdbGetByName vmName)
      match vm with
      | Except.error errG => return (clients, some errG)
      | Except.ok vm =>
        let _ ← M.call app.Infof (fun _ => Event.log StreamKind.info)
        let clientConfig : ClientConfig :=
          ⟨user, [destAuth], HostKeyCallback.InsecureIgnoreHostKey⟩
        let client ← M.call (app.Dial "tcp" (vm.LastIP ++ ":22") clientConfig)
          (fun _ => Event.dial "tcp" (vm.LastIP ++ ":22") clientConfig)
        match client with
        | Except.error errD => return (clients, some errD)
        | Except.ok client => return (clients.insert c.RemoteAddr client, none)
    | _ =>
      return (clients, some ("wrong user format '" ++ c.User ++ "' (user@vm needed)"))

/-- The callback returned a non-nil error: the authentication failed. -/
def authFailed (o : Outcome (Clients × Option String)) : Bool :=
  match o with
  | Outcome.ret (_, some _) => true
  | _ => false

/-- The text of a username before its first `@`. -/
def guestUserPart (u : String) : String :=
  String.mk (u.toList.takeWhile (fun ch => ch != '@'))

/-- A malformed username in the words of the specification: no `@`, more than
one `@`, or an empty guest-user part. -/
def Malformed (u : String) : Prop :=
  '@' ∉ u.toList ∨ 1 < u.toList.count '@' ∨ guestUserPart u = ""

/-- The four steps of the callback all succeed, the dial giving `client`: the
key has a bound API key, the username splits in two parts, the registry
resolves the second part, the backend dial succeeds. Each step is taken in the
world the steps before it left. -/
def StepsSucceed {σ : Type} (app : ProxyApp σ) (destAuth : AuthMethod)
    (c : ConnMetadata) (pubKey : String) (w : σ) (client : SSHClient) : Prop :=
  ∃ (k : APIKey) (u v : String) (vm : VM),
    (app.GetByPubKey pubKey w).1 = Except.ok (some k) ∧
    strings.Split c.User '@' = [u, v] ∧
    (app.GetByName v (app.GetByPubKey pubKey w).2).1 = Except.ok vm ∧
    (app.Dial "tcp" (vm.LastIP ++ ":22") ⟨u, [destAuth], HostKeyCallback.InsecureIgnoreHostKey⟩
      (app.Infof (app.GetByName v (app.GetByPubKey pubKey w).2).2).2).1 = Except.ok client

/-- The backend dials of a trace. -/
def dials (t : List Event) : List Event :=
  t.filter (fun e => match e with | Event.dial _ _ _ => true | _ => false)

/-- The VM registry lookups of a trace. -/
def vmLookups (t : List Event) : List Event :=
  t.filter (fun e => match e with | Event.vmdbGetByName _ => true | _ => false)

/-- A proxy environment for the examples: one registered key, the VM `web01`
at `10.0.0.5`, a backend that accepts every dial. -/
def demoProxyVM : VM :=
  ⟨⟨"web01", "", "", "", "", "", 0, 0, 0, 0, [], ∅⟩, "", "10.0.0.5", false, "", "", "", "",
    "", "", 0, 0, 0⟩

/-- See `demoProxyVM`. -/
def demoProxy : ProxyApp Unit where
  GetByPubKey := fun k w =>
    (if k = "key-alice" then Except.ok (some ⟨"alice"⟩) else Except.ok none, w)
  GetByName := fun n w =>
    (if n = "web01" then Except.ok demoProxyVM else Except.error "not found", w)
  Dial := fun _ _ _ w => (Except.ok ⟨7⟩, w)
  Infof := fun w => ((), w)


/-! ## The VM controllers (`controllers/vm.go`) -/

/-- An uploaded file of a multipart form: its header name and its content. -/
structure FormFile where
  Filename : String
  Content : String
  deriving DecidableEq, Repr

/-- What the controllers read of a `server.Request`: the sub-path of the URL,
the form values (`req.HTTP.FormValue`), the form files (`req.HTTP.FormFile`)
and the API key of the caller. -/
structure Request where
  SubPath : String
  FormValue : String → String
  FormFile : String → Except String FormFile
  APIKey : APIKey

/-- The code the controllers call and that lies outside `controllers/vm.go`:
constants of `common` and `server`, library functions, the VM registry, the
Operation registry, the hypervisor and backup layer, the clock and the HTTP
client. Each effectful collaborator is a transition on the world `σ`.
`VMBackup` takes `true` for `BackupCompressAllow` and `false` for
`BackupCompressDisable`; `NewVM` takes `true` for `VMAllowScriptFailure` and
`false` for `VMStopOnScriptFailure` as its third argument. -/
structure App (σ : Type) where
  TrueStr : String
  VMOperationNone : String
  VMNameID : VMName → String
  ParseRequestURI : String → Option String
  Atoi : String → Except String Int
  Base : String → String
  NewVMConfigFromTomlReader : String → σ → Except String VMConfig × σ
  GetCountForName : String → σ → Int × σ
  GetEntryByName : VMName → σ → Except String VMDatabaseEntry × σ
  GetActiveEntryByName : String → σ → Except String VMDatabaseEntry × σ
  SetActiveRevision : String → Int → σ → Option String × σ
  Update : σ → Option String × σ
  OperationsAdd : Operation → σ → Handle × σ
  OperationsRemove : Handle → σ → Unit × σ
  VMBackup : VMName → String → Bool → σ → Except String String × σ
  deleteBackup : String → σ → Option String × σ
  NewVM : VMConfig → Bool → Bool → String → σ → Except String (VM × VMName) × σ
  VMLockUnlock : VMName → Bool → σ → Option String × σ
  VMStartByName : VMName → String → σ → Option String × σ
  VMStopByName : VMName → σ → Option String × σ
  VMDelete : VMName → σ → Option String × σ
  VMRebuild : VMName → Bool → String → σ → Option String × σ
  VMIsRunning : VMName → σ → Bool × σ
  GetPublicKeyAuth : String → σ → Except String AuthMethod × σ
  RunGo : RunSpec → σ → Option String × σ
  GetContentFromURL : String → σ → Except String String × σ
  CheckDomainsConflicts : List Domain → String → σ → Option String × σ
  Now : σ → Int × σ
  PostForm : String → AsyncCallback → σ → Option String × σ

/-- The code the three `GetVM...Controller` functions call besides `App`: the
disk name of a VM (`server.VMGetDiskName`), the volume informations of the
hypervisor (`Libvirt.VolumeInfos` on the disk pool), and the JSON encoder
writing the answer to the response. -/
structure InfoApp (σ : Type) where
  VMGetDiskName : VMName → σ → Except String String × σ
  VolumeInfos : String → σ → Except String VolumeInfos × σ
  EncodeInfos : APIVMInfos → σ → Option String × σ
  EncodeDoList : List APIVMDoListEntry → σ → Option String × σ

section Controllers

variable {σ : Type}

/-- The function `getEntryFromRequest`. -/
def getEntryFromRequest (app : App σ) (vmName : String) (req : Request) :
    M σ (Except String VMDatabaseEntry) :=
  let action := req.FormValue "action"
  let revisionParams := req.FormValue "revision"
  if action = "activate" ∧ (revisionParams = "none" ∨ revisionParams = "-1") then do
    let count ← M.call (app.GetCountForName vmName) (fun _ => Event.getCountForName vmName)
    if count = 0 then
      return Except.error ("no " ++ vmName ++ " VM found in database")
    else
      return Except.ok ⟨⟨vmName, RevisionNone⟩, none, false⟩
  else if revisionParams ≠ "" then
    match app.Atoi revisionParams with
    | Except.error err => pure (Except.error err)
    | Except.ok revision =>
      M.call (app.GetEntryByName ⟨vmName, revision⟩)
        (fun _ => Event.getEntryByName ⟨vmName, revision⟩)
  else
    M.call (app.GetActiveEntryByName vmName) (fun _ => Event.getActiveEntryByName vmName)

/-- The function `VMControllerConfigCheck`: the parsed config and the file name,
or the error. -/
def VMControllerConfigCheck (app : App σ) (req : Request) :
    M σ (Except String (VMConfig × String)) :=
  match req.FormFile "config" with
  | Except.error err => pure (Except.error ("'config' file field: " ++ err))
  | Except.ok configFile => do
    let conf ← M.call (app.NewVMConfigFromTomlReader configFile.Content)
      (fun _ => Event.parseConfig configFile.Content)
    match conf with
    | Except.error err => return Except.error ("decoding config: " ++ err)
    | Except.ok conf =>
      let allowNewRevision := req.FormValue "allow_new_revision"
      let count ← M.call (app.GetCountForName conf.Name)
        (fun _ => Event.getCountForName conf.Name)
      if count > 0 ∧ allowNewRevision ≠ app.TrueStr then
        return Except.error
          ("VM '" ++ conf.Name ++ "' already exists (see --new-revision CLI option?)")
      else
        return Except.ok (conf, configFile.Filename)

/-- The end of `NewVMController`, from `before := time.Now()` on: provisioning,
the optional lock, the success message. -/
def NewVMController.provision (app : App σ) (req : Request) (conf : VMConfig)
    (active allowScriptFailure : Bool) (lock : String) : M σ (Option VM × Option String) := do
  let _before ← M.call app.Now (fun _ => Event.now)
  let created ← M.call (app.NewVM conf active allowScriptFailure req.APIKey.Comment)
    (fun _ => Event.newVM conf active allowScriptFailure req.APIKey.Comment)
  match created with
  | Except.error err =>
    M.emit (Event.stream StreamKind.failure)
    return (none, some ("Cannot create VM: " ++ err))
  | Except.ok (vm, vmName) =>
    if lock = app.TrueStr then
      let err ← M.call (app.VMLockUnlock vmName true) (fun _ => Event.vmLockUnlock vmName true)
      match err with
      | some _ => M.emit (Event.stream StreamKind.error)
      | none => pure ()
    let _after ← M.call app.Now (fun _ => Event.now)
    M.emit (Event.stream StreamKind.success)
    return (some vm, none)

/-- The deferred closure of `NewVMController` that deletes the transient backup
and logs a failure to do so. -/
def NewVMController.cleanup (app : App σ) (backup : String) : M σ Unit := do
  let err ← M.call (app.deleteBackup backup) (fun _ => Event.deleteBackup backup)
  match err with
  | some _ => M.emit (Event.log StreamKind.error)
  | none => pure ()

/-- The function `NewVMController`: the created VM (nil on failure) and the
error. -/
def NewVMController (app : App σ) (req : Request) : M σ (Option VM × Option String) := do
  M.emit Event.startStream
  let checked ← VMControllerConfigCheck app req
  match checked with
  | Except.error err =>
    M.emit (Event.stream StreamKind.failure)
    return (none, some err)
  | Except.ok (conf, _filename) =>
    M.emit (Event.stream StreamKind.trace)
    let restore := req.FormValue "restore"
    let restoreVM := req.FormValue "restore-vm"
    let inactive := req.FormValue "inactive"
    let keepOnFailure := req.FormValue "keep_on_failure"
    let lock := req.FormValue "lock"
    let active : Bool := if inactive = app.TrueStr then false else true
    let allowScriptFailure : Bool := if keepOnFailure = app.TrueStr then true else false
    if restore ≠ "" ∧ restoreVM ≠ "" then
      M.emit (Event.stream StreamKind.failure)
      return (none, some "restore and restore-vm flags are mutually exclusive")
    else
      let op : Operation := ⟨req.APIKey.Comment, "create", "vm", conf.Name⟩
      let operation ← M.call (app.OperationsAdd op) (fun h => Event.opAdd op h)
      M.deferred (M.call (app.OperationsRemove operation) (fun _ => Event.opRemove operation)) do
        M.emit (Event.setTarget conf.Name)
        let conf ←
          if restore ≠ "" then do
            M.emit (Event.stream StreamKind.info)
            pure { conf with RestoreBackup := restore }
          else pure conf
        if restoreVM ≠ "" then
          let entry ← M.call (app.GetActiveEntryByName restoreVM)
            (fun _ => Event.getActiveEntryByName restoreVM)
          match entry with
          | Except.error err =>
            M.emit (Event.stream StreamKind.failure)
            return (none, some ("Cannot find VM to backup: " ++ err))
          | Except.ok entry =>
            let backup ← M.call (app.VMBackup entry.Name req.APIKey.Comment false)
              (fun _ => Event.vmBackup entry.Name req.APIKey.Comment false)
            match backup with
            | Except.error err =>
              M.emit (Event.stream StreamKind.failure)
              return (none, some ("Cannot backup: " ++ err))
            | Except.ok backup =>
              M.deferred (NewVMController.cleanup app backup)
                (NewVMController.provision app req { conf with RestoreBackup := backup }
                  active allowScriptFailure lock)
        else
          NewVMController.provision app req conf active allowScriptFailure lock

/-- The body of the goroutine `NewVMAsyncController` starts: create the VM,
then post the report to the callback URL. -/
def NewVMAsyncController.job (app : App σ) (req : Request) (callbackURL : String) :
    M σ Unit := do
  let before ← M.call app.Now (fun _ => Event.now)
  let created ← NewVMController app req
  let after ← M.call app.Now (fun _ => Event.now)
  let name : String :=
    match created.1 with
    | some vm => vm.Config.Name
    | none => "unknown"
  let data : AsyncCallback := ⟨"create", name, true, after - before, ""⟩
  let data : AsyncCallback :=
    match created.2 with
    | some err => { data with Success := false, Error := err }
    | none => data
  let err ← M.call (app.PostForm callbackURL data) (fun _ => Event.postForm callbackURL data)
  match err with
  | some _ => M.emit (Event.log StreamKind.error)
  | none => pure ()

/-- The function `NewVMAsyncController`: it answers the request and returns the
background job it started, if any (`go func() ...`); the job runs later, in
whatever world the scheduler gives it. -/
def NewVMAsyncController (app : App σ) (req : Request) : M σ (Option (M σ Unit)) :=
  let callbackURL := req.FormValue "callback_url"
  match app.ParseRequestURI callbackURL with
  | some _ => do
    M.emit (Event.respond 400)
    return none
  | none => do
    let checked ← VMControllerConfigCheck app req
    match checked with
    | Except.error _ =>
      M.emit (Event.respond 400)
      return none
    | Except.ok _ =>
      M.emit (Event.respond 200)
      return some (NewVMAsyncController.job app req callbackURL)

/-- The function `ExecScriptVM`. -/
def ExecScriptVM (app : App σ) (req : Request) (vm : Option VM) (vmName : VMName) :
    M σ (Option String) :=
  match req.FormFile "script" with
  | Except.error err => pure (some ("'script' field: " ++ err))
  | Except.ok script => do
    let op : Operation := ⟨req.APIKey.Comment, "exec", "vm", app.VMNameID vmName⟩
    let operation ← M.call (app.OperationsAdd op) (fun h => Event.opAdd op h)
    M.deferred (M.call (app.OperationsRemove operation) (fun _ => Event.opRemove operation)) do
      let running ← M.call (app.VMIsRunning vmName) (fun _ => Event.vmIsRunning vmName)
      if running = false then
        return some "VM should be up and running"
      else
        let as := req.FormValue "as"
        let v ← M.deref vm
        let auth ← M.call (app.GetPublicKeyAuth v.MulchSuperUserSSHKey)
          (fun _ => Event.getPublicKeyAuth v.MulchSuperUserSSHKey)
        match auth with
        | Except.error err => return some err
        | Except.ok auth =>
          let run : RunSpec :=
            ⟨"", v.SuperUser, v.LastIP, 22, [auth], [⟨script.Filename, script.Content, as, ""⟩]⟩
          let err ← M.call (app.RunGo run) (fun _ => Event.runGo run)
          match err with
          | some err => return some err
          | none =>
            M.emit (Event.stream StreamKind.success)
            return none

/-- The function `DoActionVM`. -/
def DoActionVM (app : App σ) (req : Request) (vm : Option VM) (vmName : VMName) :
    M σ (Option String) := do
  let actionName := req.FormValue "do_action"
  let arguments := req.FormValue "arguments"
  let v ← M.deref vm
  match v.Config.DoActions.lookup actionName with
  | none =>
    return some ("unable to find action '" ++ actionName ++ "' for " ++ app.VMNameID vmName)
  | some action =>
    let running ← M.call (app.VMIsRunning vmName) (fun _ => Event.vmIsRunning vmName)
    if running = false then
      return some "VM should be up and running"
    else
      let content ← M.call (app.GetContentFromURL action.ScriptURL)
        (fun _ => Event.getContentFromURL action.ScriptURL)
      match content with
      | Except.error errG =>
        return some ("unable to get script '" ++ action.ScriptURL ++ "': " ++ errG)
      | Except.ok content =>
        M.deferred (M.emit (Event.closeContent action.ScriptURL)) do
          let auth ← M.call (app.GetPublicKeyAuth v.MulchSuperUserSSHKey)
            (fun _ => Event.getPublicKeyAuth v.MulchSuperUserSSHKey)
          match auth with
          | Except.error err => return some err
          | Except.ok auth =>
            let _before ← M.call app.Now (fun _ => Event.now)
            let run : RunSpec :=
              ⟨"do", v.SuperUser, v.LastIP, 22, [auth],
                [⟨app.Base action.ScriptURL, content, action.User, arguments⟩]⟩
            let err ← M.call (app.RunGo run) (fun _ => Event.runGo run)
            match err with
            | some err => return some err
            | none =>
              let _after ← M.call app.Now (fun _ => Event.now)
              M.emit (Event.stream StreamKind.success)
              return none

/-- The function `BackupVM`. -/
def BackupVM (app : App σ) (req : Request) (vmName : VMName) : M σ (Except String String) :=
  M.call (app.VMBackup vmName req.APIKey.Comment true)
    (fun _ => Event.vmBackup vmName req.APIKey.Comment true)

/-- The function `RebuildVMv2`. -/
def RebuildVMv2 (app : App σ) (req : Request) (vm : Option VM) (vmName : VMName) :
    M σ (Option String) := do
  let v ← M.deref vm
  if v.Locked = true ∧ req.FormValue "force" ≠ app.TrueStr then
    return some "VM is locked (see --force)"
  else
    let lock := req.FormValue "lock"
    M.call (app.VMRebuild vmName (decide (lock = app.TrueStr)) req.APIKey.Comment)
      (fun _ => Event.vmRebuild vmName (decide (lock = app.TrueStr)) req.APIKey.Comment)

/-- The loop of `RedefineVM` over the old actions: an old action that does not
come from the config is added again, unless the new config defines an action of
the same name (then a warning is written). `actions` is the action map of the
new config as the loop has left it so far; the map of a parsed config is
taken to be allocated (a write to a nil map would panic). -/
def RedefineVM.reAdd : List (Sigma (fun _ : String => VMDoAction)) → DoActionMap →
    M σ DoActionMap
  | [], actions => pure actions
  | ⟨name, action⟩ :: rest, actions =>
    if action.FromConfig = true then
      RedefineVM.reAdd rest actions
    else if name ∈ actions then do
      M.emit (Event.stream StreamKind.warning)
      RedefineVM.reAdd rest actions
    else
      RedefineVM.reAdd rest (actions.insert name action)

/-- The rest of `RedefineVM` after its lock check, from the test of `vm.WIP`
on; `v` is the record `vm` points to. The variable `err` of the source is the
`err` below: the last statements test it after `VMDB.Update()`, whose own
result is dropped. -/
def RedefineVM.unlocked (app : App σ) (req : Request) (v : VM) (active : Bool) :
    M σ (VM × Option String) :=
  if v.WIP ≠ app.VMOperationNone then
    pure (v, some ("VM have a work in progress (" ++ v.WIP ++ ")"))
  else
    match req.FormFile "config" with
    | Except.error err => pure (v, some ("'config' file field: " ++ err))
    | Except.ok configFile => do
      M.emit (Event.stream StreamKind.trace)
      let conf ← M.call (app.NewVMConfigFromTomlReader configFile.Content)
        (fun _ => Event.parseConfig configFile.Content)
      match conf with
      | Except.error err => return (v, some ("decoding config: " ++ err))
      | Except.ok conf =>
        if conf.Name ≠ v.Config.Name then
          return (v, some "VM name does not match")
        else
          let err : Option String ←
            if active = true then
              M.call (app.CheckDomainsConflicts conf.Domains conf.Name)
                (fun _ => Event.checkDomainsConflicts conf.Domains conf.Name)
            else pure none
          match err with
          | some e => return (v, some e)
          | none =>
            let v := { v with AuthorKey := req.APIKey.Comment }
            let oldActions := v.Config.DoActions
            let v := { v with Config := conf }
            let actions ← RedefineVM.reAdd oldActions.entries v.Config.DoActions
            let v := { v with Config := { v.Config with DoActions := actions } }
            let _ ← M.call app.Update (fun _ => Event.vmdbUpdate)
            match err with
            | some e => return (v, some e)
            | none => return (v, none)

/-- The function `RedefineVM`: the VM record as the call leaves it, and the
error. -/
def RedefineVM (app : App σ) (req : Request) (vm : Option VM) (active : Bool) :
    M σ (VM × Option String) := do
  let v ← M.deref vm
  if v.Locked = true ∧ req.FormValue "force" ≠ app.TrueStr then
    return (v, some "VM is locked (see --force)")
  else
    RedefineVM.unlocked app req v active

/-- Write the outcome of an action to the stream: a failure message for an
error, the success message otherwise. -/
def reportTo (err : Option String) : M σ Unit :=
  match err with
  | some _ => M.emit (Event.stream StreamKind.failure)
  | none => M.emit (Event.stream StreamKind.success)

/-- The `switch action` of `ActionVMController`, run between the registration
of the operation and its deferred removal. The result is the VM record
`entry.VM` points to, as the action leaves it. -/
def ActionVMController.dispatch (app : App σ) (req : Request)
    (entry : VMDatabaseEntry) (action : String) : M σ (Option VM) :=
  let vm := entry.VM
  if action = "lock" then do
    let v ← M.deref vm
    if v.Locked = true then M.emit (Event.stream StreamKind.warning)
    let err ← M.call (app.VMLockUnlock entry.Name true)
      (fun _ => Event.vmLockUnlock entry.Name true)
    reportTo err
    return vm
  else if action = "unlock" then do
    let v ← M.deref vm
    if v.Locked = false then M.emit (Event.stream StreamKind.warning)
    let err ← M.call (app.VMLockUnlock entry.Name false)
      (fun _ => Event.vmLockUnlock entry.Name false)
    reportTo err
    return vm
  else if action = "start" then do
    M.emit (Event.stream StreamKind.info)
    let v ← M.deref vm
    let err ← M.call (app.VMStartByName entry.Name v.SecretUUID)
      (fun _ => Event.vmStart entry.Name v.SecretUUID)
    reportTo err
    return vm
  else if action = "stop" then do
    M.emit (Event.stream StreamKind.info)
    let err ← M.call (app.VMStopByName entry.Name) (fun _ => Event.vmStop entry.Name)
    reportTo err
    return vm
  else if action = "exec" then do
    let err ← ExecScriptVM app req vm entry.Name
    match err with
    | some _ => M.emit (Event.stream StreamKind.failure)
    | none => pure ()
    return vm
  else if action = "do" then do
    let err ← DoActionVM app req vm entry.Name
    match err with
    | some _ => M.emit (Event.stream StreamKind.failure)
    | none => pure ()
    return vm
  else if action = "backup" then do
    let volName ← BackupVM app req entry.Name
    match volName with
    | Except.error _ => M.emit (Event.stream StreamKind.failure)
    | Except.ok _ => M.emit (Event.stream StreamKind.success)
    return vm
  else if action = "rebuild" then do
    let _before ← M.call app.Now (fun _ => Event.now)
    let err ← RebuildVMv2 app req vm entry.Name
    let _after ← M.call app.Now (fun _ => Event.now)
    reportTo err
    return vm
  else if action = "redefine" then do
    let redefined ← RedefineVM app req vm entry.Active
    reportTo redefined.2
    return some redefined.1
  else if action = "activate" then do
    let err ← M.call (app.SetActiveRevision entry.Name.Name entry.Name.Revision)
      (fun _ => Event.setActiveRevision entry.Name.Name entry.Name.Revision)
    reportTo err
    return vm
  else do
    M.emit (Event.stream StreamKind.failure)
    return vm

/-- The function `ActionVMController`. The result is the VM record the entry of
the request points to, as the controller leaves it (nil when there is none). -/
def ActionVMController (app : App σ) (req : Request) : M σ (Option VM) := do
  let vmName := req.SubPath
  if vmName = "" then
    M.emit Event.startStream
    M.emit (Event.stream StreamKind.failure)
    return none
  else
    let entry ← getEntryFromRequest app vmName req
    match entry with
    | Except.error _ =>
      M.emit Event.startStream
      M.emit (Event.stream StreamKind.failure)
      return none
    | Except.ok entry =>
      M.emit (Event.setHeader "Current-VM-Name" (app.VMNameID entry.Name))
      M.emit Event.startStream
      let action := req.FormValue "action"
      let operationAction ←
        if action ≠ "do" then do
          M.emit (Event.setTarget vmName)
          pure action
        else pure ("do:" ++ req.FormValue "do_action")
      let op : Operation :=
        ⟨req.APIKey.Comment, operationAction, "vm", app.VMNameID entry.Name⟩
      let operation ← M.call (app.OperationsAdd op) (fun h => Event.opAdd op h)
      M.deferred (M.call (app.OperationsRemove operation) (fun _ => Event.opRemove operation))
        (ActionVMController.dispatch app req entry action)

/-- The function `DeleteVMController`. -/
def DeleteVMController (app : App σ) (req : Request) : M σ Unit := do
  M.emit Event.startStream
  let vmName := req.SubPath
  M.emit (Event.setTarget vmName)
  let entry ← getEntryFromRequest app vmName req
  match entry with
  | Except.error _ => M.emit (Event.stream StreamKind.failure)
  | Except.ok entry =>
    let op : Operation := ⟨req.APIKey.Comment, "delete", "vm", app.VMNameID entry.Name⟩
    let operation ← M.call (app.OperationsAdd op) (fun h => Event.opAdd op h)
    M.deferred (M.call (app.OperationsRemove operation) (fun _ => Event.opRemove operation)) do
      M.emit (Event.stream StreamKind.info)
      let err ← M.call (app.VMDelete entry.Name) (fun _ => Event.vmDelete entry.Name)
      reportTo err

/-- The function `GetVMConfigController`. -/
def GetVMConfigController (app : App σ) (req : Request) : M σ Unit := do
  let vmName := req.SubPath
  if vmName = "" then
    M.emit (Event.log StreamKind.error)
    M.emit (Event.respond 400)
  else
    let entry ← getEntryFromRequest app vmName req
    match entry with
    | Except.error _ =>
      M.emit (Event.log StreamKind.error)
      M.emit (Event.respond 404)
    | Except.ok entry =>
      M.emit (Event.setHeader "Content-Type" "text/plain")
      let v ← M.deref entry.VM
      M.emit (Event.println v.Config.FileContent)

/-- The function `GetVMInfosController`. -/
def GetVMInfosController (app : App σ) (lib : InfoApp σ) (req : Request) : M σ Unit := do
  let vmName := req.SubPath
  if vmName = "" then
    M.emit (Event.log StreamKind.error)
    M.emit (Event.respond 400)
  else
    let entry ← getEntryFromRequest app vmName req
    match entry with
    | Except.error _ =>
      M.emit (Event.log StreamKind.error)
      M.emit (Event.respond 404)
    | Except.ok entry =>
      let vm := entry.VM
      let running ← M.call (app.VMIsRunning entry.Name) (fun _ => Event.vmIsRunning entry.Name)
      let diskName ← M.call (lib.VMGetDiskName entry.Name)
        (fun _ => Event.vmGetDiskName entry.Name)
      match diskName with
      | Except.error _ =>
        M.emit (Event.log StreamKind.error)
        M.emit (Event.respond 500)
      | Except.ok diskName =>
        let vInfos ← M.call (lib.VolumeInfos diskName) (fun _ => Event.volumeInfos diskName)
        match vInfos with
        | Except.error _ =>
          M.emit (Event.log StreamKind.error)
          M.emit (Event.respond 500)
        | Except.ok vInfos =>
          let v ← M.deref vm
          let domains := v.Config.Domains.map (fun domain => domain.Name)
          let data : APIVMInfos :=
            { Name := entry.Name.Name
              Revision := entry.Name.Revision
              Up := running
              Active := entry.Active
              Seed := v.Config.Seed
              CPUCount := v.Config.CPUCount
              RAMSizeMB := v.Config.RAMSize / 1024 / 1024
              DiskSizeMB := v.Config.DiskSize / 1024 / 1024
              AllocatedDiskSizeMB := vInfos.Allocation / 1024 / 1024
              BackupDiskSizeMB := v.Config.BackupDiskSize / 1024 / 1024
              Hostname := v.Config.Hostname
              Domains := domains
              SuperUser := v.SuperUser
              AppUser := v.Config.AppUser
              AuthorKey := v.AuthorKey
              InitDate := v.InitDate
              LastRebuildDuration := v.LastRebuildDuration
              LastRebuildDowntime := v.LastRebuildDowntime
              Locked := v.Locked
              AssignedIPv4 := v.AssignedIPv4
              AssignedMAC := v.AssignedMAC }
          M.emit (Event.setHeader "Content-Type" "application/json")
          let err ← M.call (lib.EncodeInfos data) (fun _ => Event.encodeInfos data)
          match err with
          | some _ =>
            M.emit (Event.log StreamKind.error)
            M.emit (Event.respond 500)
          | none => pure ()

/-- The function `GetVMDoActionsController`. The answer lists the actions in
the order of their names (`sort.Slice`). -/
def GetVMDoActionsController (app : App σ) (lib : InfoApp σ) (req : Request) : M σ Unit := do
  M.emit (Event.setHeader "Content-Type" "application/json")
  let vmName := req.SubPath
  if vmName = "" then
    M.emit (Event.log StreamKind.error)
    M.emit (Event.respond 400)
  else
    let entry ← getEntryFromRequest app vmName req
    match entry with
    | Except.error _ =>
      M.emit (Event.log StreamKind.error)
      M.emit (Event.respond 404)
    | Except.ok entry =>
      let vm := entry.VM
      let v ← M.deref vm
      let retData : List APIVMDoListEntry :=
        v.Config.DoActions.entries.map
          (fun action => ⟨action.2.Name, action.2.User, action.2.Description⟩)
      let retData := retData.insertionSort (fun a b => a.Name ≤ b.Name)
      let err ← M.call (lib.EncodeDoList retData) (fun _ => Event.encodeDoList retData)
      match err with
      | some _ =>
        M.emit (Event.log StreamKind.error)
        M.emit (Event.respond 500)
      | none => pure ()

end Controllers

/-! ## Observations on runs and traces -/

/-- The effect of one event on the stack of the handles registered and not yet
removed: `Add` pushes the handle it returned, `Remove` must be applied to the
handle on top and pops it, every other event leaves the stack alone. -/
def opsStep (st : List Handle) : Event → Option (List Handle)
  | Event.opAdd _ h => some (h :: st)
  | Event.opRemove h =>
    match st with
    | h' :: st' => if h = h' then some st' else none
    | [] => none
  | _ => some st

/-- Run a trace on a stack of handles: `none` when some `Remove` is not
applied to the handle of the matching `Add`. -/
def opsRun : List Event → List Handle → Option (List Handle)
  | [], st => some st
  | e :: t, st => (opsStep st e).bind (opsRun t)

/-- The number of `Operations.Add` calls of a trace. -/
def opAdds (t : List Event) : Nat :=
  t.countP (fun e => match e with | Event.opAdd _ _ => true | _ => false)

/-- The number of `Operations.Remove` calls of a trace. -/
def opRemoves (t : List Event) : Nat :=
  t.countP (fun e => match e with | Event.opRemove _ => true | _ => false)

/-- Operation scoping of a finished controller: every `Remove` is applied to
the handle of the matching `Add`, no registered handle is left, and there are
as many `Add` calls as `Remove` calls. -/
def OpsScoped (t : List Event) : Prop :=
  opsRun t [] = some [] ∧ opAdds t = opRemoves t

/-- A trace that leaves every stack of handles as it found it. -/
structure Balanced (t : List Event) : Prop where
  run : ∀ st, opsRun t st = some st

/-- Every event of the trace satisfies `p`. -/
structure AllEvents (p : Event → Bool) (t : List Event) : Prop where
  all : ∀ e ∈ t, p e = true

/-- A property of traces that holds of the empty trace and is kept by
concatenation. -/
structure TraceProp (P : List Event → Prop) : Prop where
  nil : P []
  append : ∀ t1 t2, P t1 → P t2 → P (t1 ++ t2)

/-- The trace of `m` has the property `P`, whatever the world it starts in and
however it ends. -/
structure M.TraceAll {σ α : Type} (P : List Event → Prop) (m : M σ α) : Prop where
  all : ∀ w, P (m w).trace

/-- The body `m` returns (it does not panic) whatever the world it starts in,
and the value it returns satisfies `Q`. -/
structure M.Returns {σ α : Type} (Q : α → Prop) (m : M σ α) : Prop where
  all : ∀ w, ∃ a, (m w).out = Outcome.ret a ∧ Q a

/-- The events that `NewVMController` must not produce before it has accepted
the restore flags: a registration of an operation, a backup, a provisioning, a
lock call. -/
def isSideEffect : Event → Bool
  | Event.opAdd _ _ => true
  | Event.vmBackup _ _ _ => true
  | Event.newVM _ _ _ _ => true
  | Event.vmLockUnlock _ _ => true
  | _ => false

/-- The event is a post to a callback URL. -/
def isPost : Event → Bool
  | Event.postForm _ _ => true
  | _ => false

/-- The posts to a callback URL of a trace. -/
def posts (t : List Event) : List Event :=
  t.filter isPost

/-- The calls of `VMRebuild` of a trace. -/
def rebuilds (t : List Event) : List Event :=
  t.filter (fun e => match e with | Event.vmRebuild _ _ _ => true | _ => false)

/-- What `NewVMController` may return: with an error, a nil VM and a non-empty
message. -/
def CreateResult (r : Option VM × Option String) : Prop :=
  ∀ e, r.2 = some e → e ≠ "" ∧ r.1 = none

/-- The target the background job reports for the VM pointer `NewVMController`
returned. -/
def callbackTarget (vm : Option VM) : String :=
  match vm with
  | some v => v.Config.Name
  | none => "unknown"

/-- The action map `RedefineVM` must leave, in the words of the specification:
the names of the new map `N` with their new definitions, and the names of the
old map `O` that are not config-sourced and that `N` does not define, with
their old definitions. -/
def mergedAction (O N : DoActionMap) (name : String) : Option VMDoAction :=
  match N.lookup name with
  | some a => some a
  | none =>
    match O.lookup name with
    | some a => if a.FromConfig = true then none else some a
    | none => none

/-- The event is a call of `VMDB.SetActiveRevision`. -/
def isSetActive : Event → Bool
  | Event.setActiveRevision _ _ => true
  | _ => false

/-- The calls of `VMDB.SetActiveRevision` of a trace. -/
def activations (t : List Event) : List Event :=
  t.filter isSetActive

/-- The event is a call of `VMDB.Update`. -/
def isUpdate : Event → Bool
  | Event.vmdbUpdate => true
  | _ => false

/-- The event is a call of `deleteBackup`. -/
def isDeleteBackup : Event → Bool
  | Event.deleteBackup _ => true
  | _ => false

/-- The calls of `deleteBackup` of a trace. -/
def backupDeletions (t : List Event) : List Event :=
  t.filter isDeleteBackup

/-- The run ended in a panic. -/
def Outcome.panicked {α : Type} : Outcome α → Bool
  | Outcome.panic _ => true
  | Outcome.ret _ => false

/-- The lookup of the VM to back up as `NewVMController` makes it for the
request `req`, started in the world `w`, once the config `conf` is checked:
after the config check and the registration of the operation. -/
def NewVMController.sourceLookup {σ : Type} (app : App σ) (req : Request) (conf : VMConfig)
    (w : σ) : Except String VMDatabaseEntry × σ :=
  app.GetActiveEntryByName (req.FormValue "restore-vm")
    (app.OperationsAdd ⟨req.APIKey.Comment, "create", "vm", conf.Name⟩
      (VMControllerConfigCheck app req w).world).2

/-- The backup of the VM `entry` as `NewVMController` makes it, after the
lookup `NewVMController.sourceLookup`. -/
def NewVMController.sourceBackup {σ : Type} (app : App σ) (req : Request) (conf : VMConfig)
    (entry : VMDatabaseEntry) (w : σ) : Except String String × σ :=
  app.VMBackup entry.Name req.APIKey.Comment false
    (NewVMController.sourceLookup app req conf w).2

/-! ## An environment for the examples -/

/-- A config named `name` with the actions `actions`. -/
def demoConfig (name : String) (actions : DoActionMap) : VMConfig :=
  ⟨name, "", "debian", "app", "", "", 1, 1024, 2048, 0, [], actions⟩

/-- A VM record with the config `conf`. -/
def demoVM (conf : VMConfig) (locked : Bool) (wip : String) : VM :=
  ⟨conf, "bob", "10.0.0.5", locked, wip, "secret", "superuser", "admin", "", "", 0, 0, 0⟩

/-- A user action named `name`. -/
def demoAction (name url : String) (fromConfig : Bool) : VMDoAction :=
  ⟨name, url, "app", "", fromConfig⟩

/-- The old action map of the examples: `a` and `b`, both defined by the
running VM (not config-sourced). -/
def demoOldActions : DoActionMap :=
  ((∅ : DoActionMap).insert "a" (demoAction "a" "http://old/a" false)).insert "b"
    (demoAction "b" "http://old/b" false)

/-- The new action map of the examples: `b` only, config-sourced. -/
def demoNewActions : DoActionMap :=
  (∅ : DoActionMap).insert "b" (demoAction "b" "http://new/b" true)

/-- An environment for the examples. The world is the next handle of the
Operation registry. The config parser reads the VM name in the content of the
file (the content `web01+b` is the config `web01` with the actions
`demoNewActions`); the hypervisor fails to provision the VM named `broken`;
the registry knows the VM `web01`. -/
def demoApp : App Nat where
  TrueStr := "true"
  VMOperationNone := ""
  VMNameID := fun n => n.Name
  ParseRequestURI := fun u => if u = "" then some "empty url" else none
  Atoi := fun s => if s = "0" then Except.ok 0 else Except.error "invalid syntax"
  Base := fun u => u
  NewVMConfigFromTomlReader := fun content w =>
    (if content = "" then Except.error "empty file"
     else if content = "web01+b" then Except.ok (demoConfig "web01" demoNewActions)
     else Except.ok (demoConfig content ∅), w)
  GetCountForName := fun _ w => (0, w)
  GetEntryByName := fun n w =>
    (Except.ok ⟨n, some (demoVM (demoConfig n.Name demoOldActions) false ""), true⟩, w)
  GetActiveEntryByName := fun n w =>
    (if n = "web01" then
      Except.ok ⟨⟨n, 0⟩, some (demoVM (demoConfig n demoOldActions) false ""), true⟩
     else Except.error "not found", w)
  SetActiveRevision := fun _ _ w => (none, w)
  Update := fun w => (none, w)
  OperationsAdd := fun _ w => (w, w + 1)
  OperationsRemove := fun _ w => ((), w)
  VMBackup := fun n _ _ w => (Except.ok (n.Name ++ "-backup"), w)
  deleteBackup := fun _ w => (none, w)
  NewVM := fun conf _ _ author w =>
    (if conf.Name = "broken" then Except.error "no space left"
     else Except.ok ({ demoVM conf false "" with AuthorKey := author }, ⟨conf.Name, 0⟩), w)
  VMLockUnlock := fun _ _ w => (none, w)
  VMStartByName := fun _ _ w => (none, w)
  VMStopByName := fun _ w => (none, w)
  VMDelete := fun _ w => (none, w)
  VMRebuild := fun _ _ _ w => (none, w)
  VMIsRunning := fun _ w => (true, w)
  GetPublicKeyAuth := fun pair w => (Except.ok ⟨pair⟩, w)
  RunGo := fun _ w => (none, w)
  GetContentFromURL := fun _ w => (Except.ok "#!/bin/sh", w)
  CheckDomainsConflicts := fun _ _ w => (none, w)
  Now := fun w => (0, w)
  PostForm := fun _ _ w => (none, w)

/-- A request of the caller `alice` with the given sub-path, form values and
config file content; the file `script` is always present. -/
def demoRequest (subPath : String) (form : List (String × String)) (config : String) :
    Request where
  SubPath := subPath
  FormValue := fun k => (form.lookup k).getD ""
  FormFile := fun k =>
    if k = "config" then Except.ok ⟨"vm.toml", config⟩
    else if k = "script" then Except.ok ⟨"run.sh", "#!/bin/sh"⟩
    else Except.error "http: no such file"
  APIKey := ⟨"alice"⟩

/-- The environment of the examples with two revisions of `web01` in the
registry. -/
def demoAppRegistered : App Nat :=
  { demoApp with GetCountForName := fun n w => (if n = "web01" then 2 else 0, w) }

/-- The environment of the examples with a registry that fails to persist
itself: `VMDB.Update` returns an error. -/
def demoAppUpdateFails : App Nat :=
  { demoApp with Update := fun w => (some "cannot write the database", w) }

/-- The environment of the examples with a backup layer that fails to delete a
backup. -/
def demoAppDeleteFails : App Nat :=
  { demoApp with deleteBackup := fun _ w => (some "volume is busy", w) }

/-- The remaining collaborators of the `GetVM...Controller` functions, for the
examples: every call succeeds. -/
def demoInfo : InfoApp Nat where
  VMGetDiskName := fun n w => (Except.ok (n.Name ++ ".qcow2"), w)
  VolumeInfos := fun _ w => (Except.ok ⟨1048576⟩, w)
  EncodeInfos := fun _ w => (none, w)
  EncodeDoList := fun _ w => (none, w)

/-! ## Lemmas on `strings.Split` -/

theorem splitChars_length (sep : Char) (l : List Char) :
    (splitChars sep l).length = l.count sep + 1 := by
  induction l with
  | nil => simp [splitChars]
  | cons c cs ih =>
    by_cases h : c = sep
    · subst h; simp [splitChars, ih]
    · have hne : (splitChars sep cs) ≠ [] := by
        intro h0; rw [h0] at ih; simp at ih
      simp only [splitChars, h, if_false]
      cases hs : splitChars sep cs with
      | nil => exact absurd hs hne
      | cons p ps =>
        rw [hs] at ih
        simp [List.count_cons, h] at ih ⊢
        omega

theorem splitChars_of_not_mem (sep : Char) (l : List Char) (h : sep ∉ l) :
    splitChars sep l = [l] := by
  induction l with
  | nil => simp [splitChars]
  | cons c cs ih =>
    simp only [List.mem_cons, not_or] at h
    have hc : c ≠ sep := fun e => h.1 e.symm
    simp [splitChars, hc, ih h.2]

theorem splitChars_append_sep (sep : Char) (a b : List Char) (ha : sep ∉ a) :
    splitChars sep (a ++ sep :: b) = a :: splitChars sep b := by
  induction a with
  | nil => simp [splitChars]
  | cons c cs ih =>
    simp only [List.mem_cons, not_or] at ha
    have hc : c ≠ sep := fun e => ha.1 e.symm
    simp [splitChars, hc, ih ha.2]

theorem Split_length (s : String) (sep : Char) :
    (strings.Split s sep).length = s.toList.count sep + 1 := by
  simp [strings.Split, splitChars_length]

theorem Split_user_at_vm (u v : String) (hu : '@' ∉ u.toList) (hv : '@' ∉ v.toList) :
    strings.Split (u ++ "@" ++ v) '@' = [u, v] := by
  have h : (u ++ "@" ++ v).toList = u.toList ++ '@' :: v.toList := by
    simp [String.toList]
  rw [strings.Split, h, splitChars_append_sep _ _ _ hu, splitChars_of_not_mem _ _ hv]
  rfl

/-! ## The SSH proxy: the runs of the callback, case by case -/

section ProxyRuns

variable {σ : Type} (app : ProxyApp σ) (destAuth : AuthMethod) (clients : Clients)
  (c : ConnMetadata) (pubKey : String) (w : σ)

theorem PublicKeyCallback_keyError (e : String)
    (h1 : (app.GetByPubKey pubKey w).1 = Except.error e) :
    PublicKeyCallback app destAuth clients c pubKey w
      = ⟨Outcome.ret (clients, some e), (app.GetByPubKey pubKey w).2,
          [Event.getByPubKey pubKey]⟩ := by
  simp only [PublicKeyCallback, bind, pure, M.seq, M.unit, M.call, h1, List.append_nil]

theorem PublicKeyCallback_keyUnknown
    (h1 : (app.GetByPubKey pubKey w).1 = Except.ok none) :
    PublicKeyCallback app destAuth clients c pubKey w
      = ⟨Outcome.ret (clients, some ("unknown public key for \"" ++ c.User ++ "\"")),
          (app.GetByPubKey pubKey w).2, [Event.getByPubKey pubKey]⟩ := by
  simp only [PublicKeyCallback, bind, pure, M.seq, M.unit, M.call, h1, List.append_nil]

theorem PublicKeyCallback_badFormat (k : APIKey)
    (h1 : (app.GetByPubKey pubKey w).1 = Except.ok (some k))
    (hs : (strings.Split c.User '@').length ≠ 2) :
    PublicKeyCallback app destAuth clients c pubKey w
      = ⟨Outcome.ret (clients, some ("wrong user format '" ++ c.User ++ "' (user@vm needed)")),
          (app.GetByPubKey pubKey w).2, [Event.getByPubKey pubKey]⟩ := by
  simp only [PublicKeyCallback, bind, pure, M.seq, M.unit, M.call, h1]
  rcases hl : strings.Split c.User '@' with _ | ⟨a, _ | ⟨b, _ | ⟨d, l⟩⟩⟩
  · simp [M.unit]
  · simp [M.unit]
  · rw [hl] at hs; simp at hs
  · simp [M.unit]

theorem PublicKeyCallback_noVM (k : APIKey) (u v e : String)
    (h1 : (app.GetByPubKey pubKey w).1 = Except.ok (some k))
    (hs : strings.Split c.User '@' = [u, v])
    (h3 : (app.GetByName v (app.GetByPubKey pubKey w).2).1 = Except.error e) :
    PublicKeyCallback app destAuth clients c pubKey w
      = ⟨Outcome.ret (clients, some e), (app.GetByName v (app.GetByPubKey pubKey w).2).2,
          [Event.getByPubKey pubKey, Event.vmdbGetByName v]⟩ := by
  simp [PublicKeyCallback, bind, pure, M.seq, M.unit, M.call, h1, hs, h3]

theorem PublicKeyCallback_dialed (k : APIKey) (u v : String) (vm : VM)
    (h1 : (app.GetByPubKey pubKey w).1 = Except.ok (some k))
    (hs : strings.Split c.User '@' = [u, v])
    (h3 : (app.GetByName v (app.GetByPubKey pubKey w).2).1 = Except.ok vm) :
    PublicKeyCallback app destAuth clients c pubKey w
      = ⟨(match (app.Dial "tcp" (vm.LastIP ++ ":22")
              ⟨u, [destAuth], HostKeyCallback.InsecureIgnoreHostKey⟩
              (app.Infof (app.GetByName v (app.GetByPubKey pubKey w).2).2).2).1 with
          | Except.error errD => Outcome.ret (clients, some errD)
          | Except.ok client => Outcome.ret (clients.insert c.RemoteAddr client, none)),
          (app.Dial "tcp" (vm.LastIP ++ ":22")
              ⟨u, [destAuth], HostKeyCallback.InsecureIgnoreHostKey⟩
              (app.Infof (app.GetByName v (app.GetByPubKey pubKey w).2).2).2).2,
          [Event.getByPubKey pubKey, Event.vmdbGetByName v, Event.log StreamKind.info,
            Event.dial "tcp" (vm.LastIP ++ ":22")
              ⟨u, [destAuth], HostKeyCallback.InsecureIgnoreHostKey⟩]⟩ := by
  simp only [PublicKeyCallback, bind, pure, M.seq, M.unit, M.call, h1, hs, h3]
  cases (app.Dial "tcp" (vm.LastIP ++ ":22")
      ⟨u, [destAuth], HostKeyCallback.InsecureIgnoreHostKey⟩
      (app.Infof (app.GetByName v (app.GetByPubKey pubKey w).2).2).2).1 <;> simp [M.unit]

end ProxyRuns

/-! ## The SSH proxy: claims -/

/-- C1, as stated, fails: with a registered key, the username `@web01` (empty
guest-user part, hence malformed in the words of the claim) is not rejected;
the registry resolves `web01`, the backend accepts the dial, and the callback
returns no error. -/
theorem PublicKeyCallback_accepts_empty_guest_user :
    (demoProxy.GetByPubKey "key-alice" ()).1 = Except.ok (some ⟨"alice"⟩) ∧
    Malformed "@web01" ∧
    authFailed (PublicKeyCallback demoProxy ⟨"superuser"⟩ ∅
      ⟨"@web01", "192.0.2.1:40000"⟩ "key-alice" ()).out = false := by
  refine ⟨rfl, Or.inr (Or.inr (by decide)), ?_⟩
  decide

/-- C1, amended: for every registered public key and every username that
contains no `@` or more than one `@`, the callback returns an authentication
error; a username with exactly one `@` and an empty guest-user part passes the
format check: when the registry resolves its VM part and the backend accepts
the dial, the callback returns no error. -/
theorem PublicKeyCallback_rejects_wrong_at_count {σ : Type} (app : ProxyApp σ)
    (destAuth : AuthMethod) (clients : Clients) (c : ConnMetadata) (pubKey : String) (w : σ)
    (k : APIKey) (hreg : (app.GetByPubKey pubKey w).1 = Except.ok (some k)) :
    (('@' ∉ c.User.toList ∨ 1 < c.User.toList.count '@') →
      authFailed (PublicKeyCallback app destAuth clients c pubKey w).out = true) ∧
    (∀ (v : String) (vm : VM) (client : SSHClient),
      c.User = "" ++ "@" ++ v → '@' ∉ v.toList →
      (app.GetByName v (app.GetByPubKey pubKey w).2).1 = Except.ok vm →
      (app.Dial "tcp" (vm.LastIP ++ ":22") ⟨"", [destAuth], HostKeyCallback.InsecureIgnoreHostKey⟩
        (app.Infof (app.GetByName v (app.GetByPubKey pubKey w).2).2).2).1 = Except.ok client →
      (PublicKeyCallback app destAuth clients c pubKey w).out
        = Outcome.ret (clients.insert c.RemoteAddr client, none)) := by
  constructor
  · intro hbad
    have hlen : (strings.Split c.User '@').length ≠ 2 := by
      rw [Split_length]
      rcases hbad with h | h
      · rw [List.count_eq_zero_of_not_mem h]; decide
      · omega
    rw [PublicKeyCallback_badFormat app destAuth clients c pubKey w k hreg hlen]
    rfl
  · intro v vm client hu hv h3 h4
    have hs : strings.Split c.User '@' = ["", v] := by
      rw [hu]; exact Split_user_at_vm "" v (by simp) hv
    rw [PublicKeyCallback_dialed app destAuth clients c pubKey w k "" v vm hreg hs h3, h4]

/-- Witness of C1 amended: the username `badformat` with the registered key of
the example proxy. -/
theorem PublicKeyCallback_rejects_wrong_at_count_witness :
    authFailed (PublicKeyCallback demoProxy ⟨"superuser"⟩ ∅
      ⟨"badformat", "192.0.2.1:40000"⟩ "key-alice" ()).out = true :=
  (PublicKeyCallback_rejects_wrong_at_count demoProxy ⟨"superuser"⟩ ∅
    ⟨"badformat", "192.0.2.1:40000"⟩ "key-alice" () ⟨"alice"⟩ rfl).1 (Or.inl (by decide))

/-- C2: the callback always returns (it never panics); the error it returns is
nil exactly when all four steps succeed (a bound API key, a username of two
parts, a resolved VM, an accepted dial); whenever the error is non-nil the
table `clients` is as before the call; and when the steps succeed the table
after the call maps the remote address to the dialed client. -/
theorem PublicKeyCallback_error_iff_step_fails {σ : Type} (app : ProxyApp σ)
    (destAuth : AuthMethod) (clients : Clients) (c : ConnMetadata) (pubKey : String) (w : σ) :
    ∃ (clients' : Clients) (err : Option String),
      (PublicKeyCallback app destAuth clients c pubKey w).out = Outcome.ret (clients', err) ∧
      (err = none ↔ ∃ client, StepsSucceed app destAuth c pubKey w client) ∧
      (err ≠ none → clients' = clients) ∧
      (∀ client, StepsSucceed app destAuth c pubKey w client →
        clients' = clients.insert c.RemoteAddr client ∧
        clients'.lookup c.RemoteAddr = some client) := by
  have key : ∀ (e : String),
      (PublicKeyCallback app destAuth clients c pubKey w).out = Outcome.ret (clients, some e) →
      (∀ client, ¬ StepsSucceed app destAuth c pubKey w client) →
      ∃ (clients' : Clients) (err : Option String),
        (PublicKeyCallback app destAuth clients c pubKey w).out = Outcome.ret (clients', err) ∧
        (err = none ↔ ∃ client, StepsSucceed app destAuth c pubKey w client) ∧
        (err ≠ none → clients' = clients) ∧
        (∀ client, StepsSucceed app destAuth c pubKey w client →
          clients' = clients.insert c.RemoteAddr client ∧
          clients'.lookup c.RemoteAddr = some client) := by
    intro e he hno
    refine ⟨clients, some e, he, ⟨fun h => (by cases h), fun ⟨cl, h⟩ => absurd h (hno cl)⟩,
      fun _ => rfl, fun cl h => absurd h (hno cl)⟩
  cases h1 : (app.GetByPubKey pubKey w).1 with
  | error e =>
    refine key e (by rw [PublicKeyCallback_keyError app destAuth clients c pubKey w e h1]) ?_
    rintro client ⟨k, u, v, vm, hk, -⟩
    rw [h1] at hk; cases hk
  | ok found =>
    cases found with
    | none =>
      refine key _ (by rw [PublicKeyCallback_keyUnknown app destAuth clients c pubKey w h1]) ?_
      rintro client ⟨k, u, v, vm, hk, -⟩
      rw [h1] at hk; cases hk
    | some k =>
      by_cases hlen : (strings.Split c.User '@').length = 2
      · obtain ⟨u, v, hs⟩ := List.length_eq_two.mp hlen
        cases h3 : (app.GetByName v (app.GetByPubKey pubKey w).2).1 with
        | error e =>
          refine key e
            (by rw [PublicKeyCallback_noVM app destAuth clients c pubKey w k u v e h1 hs h3]) ?_
          rintro client ⟨k', u', v', vm, -, hs', hvm, -⟩
          rw [hs] at hs'
          simp only [List.cons.injEq, and_true] at hs'
          obtain ⟨rfl, rfl⟩ := hs'
          rw [h3] at hvm; cases hvm
        | ok vm =>
          have hrun := PublicKeyCallback_dialed app destAuth clients c pubKey w k u v vm h1 hs h3
          cases h4 : (app.Dial "tcp" (vm.LastIP ++ ":22")
              ⟨u, [destAuth], HostKeyCallback.InsecureIgnoreHostKey⟩
              (app.Infof (app.GetByName v (app.GetByPubKey pubKey w).2).2).2).1 with
          | error e =>
            refine key e (by rw [hrun, h4]) ?_
            rintro client ⟨k', u', v', vm', -, hs', hvm, hd⟩
            rw [hs] at hs'
            simp only [List.cons.injEq, and_true] at hs'
            obtain ⟨rfl, rfl⟩ := hs'
            rw [h3] at hvm; cases hvm
            rw [h4] at hd; cases hd
          | ok client =>
            have hsteps : StepsSucceed app destAuth c pubKey w client :=
              ⟨k, u, v, vm, h1, hs, h3, h4⟩
            refine ⟨clients.insert c.RemoteAddr client, none, by rw [hrun, h4],
              ⟨fun _ => ⟨client, hsteps⟩, fun _ => rfl⟩, fun h => absurd rfl h, ?_⟩
            rintro client' ⟨k', u', v', vm', -, hs', hvm, hd⟩
            rw [hs] at hs'
            simp only [List.cons.injEq, and_true] at hs'
            obtain ⟨rfl, rfl⟩ := hs'
            rw [h3] at hvm; cases hvm
            rw [h4] at hd; cases hd
            exact ⟨rfl, AList.lookup_insert _⟩
      · refine key _
          (by rw [PublicKeyCallback_badFormat app destAuth clients c pubKey w k h1 hlen]) ?_
        rintro client ⟨k', u, v, vm, -, hs, -⟩
        rw [hs] at hlen; exact hlen rfl

/-- C3: with a registered key and the username `u@v`, where the registry
resolves `v` to a VM of address `A`, the callback dials exactly once, the
address `A:22` over tcp with client user `u` and the captured superuser
credential as only auth method; with a username without `@` the callback
fails and performs neither a VM lookup nor a dial. -/
theorem PublicKeyCallback_dials_resolved_backend {σ : Type} (app : ProxyApp σ)
    (destAuth : AuthMethod) (clients : Clients) (c : ConnMetadata) (pubKey : String) (w : σ) :
    (∀ (k : APIKey) (u v A : String) (vm : VM),
      (app.GetByPubKey pubKey w).1 = Except.ok (some k) →
      c.User = u ++ "@" ++ v → '@' ∉ u.toList → '@' ∉ v.toList →
      (app.GetByName v (app.GetByPubKey pubKey w).2).1 = Except.ok vm → vm.LastIP = A →
      dials (PublicKeyCallback app destAuth clients c pubKey w).trace
        = [Event.dial "tcp" (A ++ ":22")
            ⟨u, [destAuth], HostKeyCallback.InsecureIgnoreHostKey⟩]) ∧
    ('@' ∉ c.User.toList →
      authFailed (PublicKeyCallback app destAuth clients c pubKey w).out = true ∧
      vmLookups (PublicKeyCallback app destAuth clients c pubKey w).trace = [] ∧
      dials (PublicKeyCallback app destAuth clients c pubKey w).trace = []) := by
  constructor
  · intro k u v A vm h1 hu hnu hnv h3 hA
    have hs : strings.Split c.User '@' = [u, v] := by
      rw [hu]; exact Split_user_at_vm u v hnu hnv
    rw [PublicKeyCallback_dialed app destAuth clients c pubKey w k u v vm h1 hs h3, hA]
    simp [dials]
  · intro hno
    cases h1 : (app.GetByPubKey pubKey w).1 with
    | error e =>
      rw [PublicKeyCallback_keyError app destAuth clients c pubKey w e h1]
      simp [authFailed, vmLookups, dials]
    | ok found =>
      cases found with
      | none =>
        rw [PublicKeyCallback_keyUnknown app destAuth clients c pubKey w h1]
        simp [authFailed, vmLookups, dials]
      | some k =>
        have hlen : (strings.Split c.User '@').length ≠ 2 := by
          rw [Split_length, List.count_eq_zero_of_not_mem hno]; decide
        rw [PublicKeyCallback_badFormat app destAuth clients c pubKey w k h1 hlen]
        simp [authFailed, vmLookups, dials]

/-- Witness of C3: `alice@web01` dials `10.0.0.5:22` as `alice`, and
`badformat` fails without lookup or dial. -/
theorem PublicKeyCallback_dials_resolved_backend_witness :
    dials (PublicKeyCallback demoProxy ⟨"superuser"⟩ ∅
        ⟨"alice@web01", "192.0.2.1:40000"⟩ "key-alice" ()).trace
      = [Event.dial "tcp" ("10.0.0.5" ++ ":22")
          ⟨"alice", [⟨"superuser"⟩], HostKeyCallback.InsecureIgnoreHostKey⟩] ∧
    (authFailed (PublicKeyCallback demoProxy ⟨"superuser"⟩ ∅
        ⟨"badformat", "192.0.2.1:40000"⟩ "key-alice" ()).out = true ∧
      vmLookups (PublicKeyCallback demoProxy ⟨"superuser"⟩ ∅
        ⟨"badformat", "192.0.2.1:40000"⟩ "key-alice" ()).trace = [] ∧
      dials (PublicKeyCallback demoProxy ⟨"superuser"⟩ ∅
        ⟨"badformat", "192.0.2.1:40000"⟩ "key-alice" ()).trace = []) :=
  ⟨(PublicKeyCallback_dials_resolved_backend demoProxy ⟨"superuser"⟩ ∅
      ⟨"alice@web01", "192.0.2.1:40000"⟩ "key-alice" ()).1 ⟨"alice"⟩ "alice" "web01" "10.0.0.5"
      demoProxyVM rfl (by decide) (by decide) (by decide) rfl rfl,
   (PublicKeyCallback_dials_resolved_backend demoProxy ⟨"superuser"⟩ ∅
      ⟨"badformat", "192.0.2.1:40000"⟩ "key-alice" ()).2 (by decide)⟩

/-! ## Runs: sequencing, trace properties, return values -/

section RunLemmas

variable {σ α β : Type} {P : List Event → Prop}

theorem M.bind_run (m : M σ α) (f : α → M σ β) (w : σ) :
    (m >>= f) w = match (m w).out with
      | Outcome.ret a =>
        ⟨(f a (m w).world).out, (f a (m w).world).world,
          (m w).trace ++ (f a (m w).world).trace⟩
      | Outcome.panic msg => ⟨Outcome.panic msg, (m w).world, (m w).trace⟩ := by
  show M.seq m f w = _
  unfold M.seq
  rcases m w with ⟨o, w1, t1⟩
  cases o <;> rfl

theorem M.bind_run_ret (m : M σ α) (f : α → M σ β) (w : σ) (a : α)
    (h : (m w).out = Outcome.ret a) :
    (m >>= f) w = ⟨(f a (m w).world).out, (f a (m w).world).world,
      (m w).trace ++ (f a (m w).world).trace⟩ := by
  rw [M.bind_run, h]

theorem M.pure_run (a : α) (w : σ) : (pure a : M σ α) w = ⟨Outcome.ret a, w, []⟩ := rfl

theorem M.traceAll_pure (hP : TraceProp P) (a : α) : M.TraceAll P (pure a : M σ α) :=
  ⟨fun _ => hP.nil⟩

theorem M.traceAll_bind (hP : TraceProp P) {m : M σ α} {f : α → M σ β}
    (hm : M.TraceAll P m) (hf : ∀ a, M.TraceAll P (f a)) : M.TraceAll P (m >>= f) := by
  constructor
  intro w
  rw [M.bind_run]
  cases h : (m w).out with
  | ret a => exact hP.append _ _ (hm.all w) ((hf a).all _)
  | panic msg => exact hm.all w

theorem M.traceAll_call {f : σ → α × σ} {ev : α → Event} (h : ∀ a, P [ev a]) :
    M.TraceAll P (M.call f ev) := ⟨fun _ => h _⟩

theorem M.traceAll_emit {e : Event} (h : P [e]) : M.TraceAll P (M.emit e : M σ Unit) :=
  ⟨fun _ => h⟩

theorem M.traceAll_deref (hP : TraceProp P) (p : Option α) :
    M.TraceAll P (M.deref p : M σ α) := by
  cases p <;> exact ⟨fun _ => hP.nil⟩

theorem M.traceAll_deferred (hP : TraceProp P) {c : M σ Unit} {b : M σ α}
    (hc : M.TraceAll P c) (hb : M.TraceAll P b) : M.TraceAll P (M.deferred c b) := by
  constructor
  intro w
  unfold M.deferred
  have h1 := hb.all w
  have h2 := hc.all (b w).world
  rcases hbw : b w with ⟨o, w1, t1⟩
  rw [hbw] at h1 h2
  simp only at h1 h2 ⊢
  rcases hcw : c w1 with ⟨o2, w2, t2⟩
  rw [hcw] at h2
  cases o2 <;> exact hP.append _ _ h1 h2

theorem M.traceAll_ite {c : Prop} [Decidable c] {a b : M σ α}
    (ha : M.TraceAll P a) (hb : M.TraceAll P b) : M.TraceAll P (if c then a else b) := by
  split
  · exact ha
  · exact hb

end RunLemmas

/-! ## Operation scoping: every controller leaves the stack of handles as it was -/

theorem opsRun_append (t1 t2 : List Event) (st : List Handle) :
    opsRun (t1 ++ t2) st = (opsRun t1 st).bind (opsRun t2) := by
  induction t1 generalizing st with
  | nil => rfl
  | cons e t ih =>
    simp only [List.cons_append, opsRun]
    cases opsStep st e with
    | none => rfl
    | some st1 => exact ih st1

theorem opsStep_count (e : Event) (st st1 : List Handle) (hs : opsStep st e = some st1) :
    opAdds [e] + st.length = opRemoves [e] + st1.length := by
  cases e
  case opRemove h =>
    rcases st with _ | ⟨h', st2⟩
    · simp [opsStep] at hs
    · simp only [opsStep] at hs
      split at hs
      · cases hs; simp [opAdds, opRemoves]; omega
      · cases hs
  all_goals
    simp only [opsStep, Option.some.injEq] at hs
    subst hs
    simp [opAdds, opRemoves]
    try omega

theorem opsRun_count (t : List Event) (st st' : List Handle) (h : opsRun t st = some st') :
    opAdds t + st.length = opRemoves t + st'.length := by
  induction t generalizing st with
  | nil =>
    simp only [opsRun, Option.some.injEq] at h
    subst h; rfl
  | cons e t ih =>
    simp only [opsRun] at h
    cases hs : opsStep st e with
    | none => rw [hs] at h; cases h
    | some st1 =>
      rw [hs] at h
      have h1 := ih st1 h
      have h2 := opsStep_count e st st1 hs
      have ha : opAdds (e :: t) = opAdds [e] + opAdds t := by
        simp only [opAdds, List.countP_cons, List.countP_nil]; omega
      have hr : opRemoves (e :: t) = opRemoves [e] + opRemoves t := by
        simp only [opRemoves, List.countP_cons, List.countP_nil]; omega
      omega

theorem balanced_scoped {t : List Event} (h : Balanced t) : OpsScoped t :=
  ⟨h.run [], by simpa using opsRun_count t [] [] (h.run [])⟩

theorem balanced_traceProp : TraceProp Balanced where
  nil := ⟨fun _ => rfl⟩
  append := fun t1 t2 h1 h2 =>
    ⟨fun st => by rw [opsRun_append, h1.run st]; exact h2.run st⟩

theorem balanced_single (e : Event) (h1 : ∀ op h, e ≠ Event.opAdd op h)
    (h2 : ∀ h, e ≠ Event.opRemove h) : Balanced [e] := by
  constructor
  intro st
  cases e <;> simp_all [opsRun, opsStep]

/-- The statement pair `operation := Operations.Add(op)`,
`defer Operations.Remove(operation)` around a balanced body is balanced. -/
theorem balanced_bracket {σ α : Type} (app : App σ) (op : Operation) (body : Handle → M σ α)
    (hb : ∀ h, M.TraceAll Balanced (body h)) :
    M.TraceAll Balanced
      (M.call (app.OperationsAdd op) (fun h => Event.opAdd op h) >>= fun operation =>
        M.deferred (M.call (app.OperationsRemove operation) (fun _ => Event.opRemove operation))
          (body operation)) := by
  constructor
  intro w
  constructor
  intro st
  rw [M.bind_run]
  simp only [M.call, M.deferred]
  have h1 := (hb (app.OperationsAdd op w).1).all (app.OperationsAdd op w).2
  rcases hbw : body (app.OperationsAdd op w).1 (app.OperationsAdd op w).2 with ⟨o, w1, t1⟩
  rw [hbw] at h1
  simp only at h1 ⊢
  simp only [List.singleton_append, List.append_eq, List.nil_append, opsRun, opsStep,
    Option.bind]
  rw [opsRun_append, h1.run _]
  simp [opsRun, opsStep]

section BalancedControllers

set_option linter.unusedTactic false
set_option linter.unreachableTactic false

variable {σ : Type} (app : App σ) (req : Request)

theorem VMControllerConfigCheck_balanced :
    M.TraceAll Balanced (VMControllerConfigCheck app req) := by
  unfold VMControllerConfigCheck
  repeat' first
    | apply M.traceAll_pure balanced_traceProp
    | apply balanced_bracket
    | apply M.traceAll_bind balanced_traceProp
    | apply M.traceAll_deref balanced_traceProp
    | apply M.traceAll_deferred balanced_traceProp
    | apply M.traceAll_ite
    | (apply M.traceAll_emit; apply balanced_single <;> (intros; simp))
    | (apply M.traceAll_call; intro _; apply balanced_single <;> (intros; simp))
    | intro _
    | split
    | dsimp only

theorem getEntryFromRequest_balanced (n : String) :
    M.TraceAll Balanced (getEntryFromRequest app n req) := by
  unfold getEntryFromRequest
  repeat' first
    | apply M.traceAll_pure balanced_traceProp
    | apply balanced_bracket
    | apply M.traceAll_bind balanced_traceProp
    | apply M.traceAll_deref balanced_traceProp
    | apply M.traceAll_deferred balanced_traceProp
    | apply M.traceAll_ite
    | (apply M.traceAll_emit; apply balanced_single <;> (intros; simp))
    | (apply M.traceAll_call; intro _; apply balanced_single <;> (intros; simp))
    | intro _
    | split
    | dsimp only

theorem NewVMController_balanced : M.TraceAll Balanced (NewVMController app req) := by
  unfold NewVMController NewVMController.provision NewVMController.cleanup
  repeat' first
    | apply VMControllerConfigCheck_balanced
    | apply M.traceAll_pure balanced_traceProp
    | apply balanced_bracket
    | apply M.traceAll_bind balanced_traceProp
    | apply M.traceAll_deref balanced_traceProp
    | apply M.traceAll_deferred balanced_traceProp
    | apply M.traceAll_ite
    | (apply M.traceAll_emit; apply balanced_single <;> (intros; simp))
    | (apply M.traceAll_call; intro _; apply balanced_single <;> (intros; simp))
    | intro _
    | split
    | dsimp only

theorem reAdd_balanced (l : List (Sigma (fun _ : String => VMDoAction))) (a : DoActionMap) :
    M.TraceAll Balanced (RedefineVM.reAdd l a : M σ DoActionMap) := by
  induction l generalizing a with
  | nil => exact M.traceAll_pure balanced_traceProp a
  | cons x rest ih =>
    obtain ⟨name, action⟩ := x
    unfold RedefineVM.reAdd
    repeat' first
      | apply ih
      | apply M.traceAll_bind balanced_traceProp
      | apply M.traceAll_ite
      | (apply M.traceAll_emit; apply balanced_single <;> (intros; simp))
      | intro _

theorem reportTo_balanced (err : Option String) :
    M.TraceAll Balanced (reportTo err : M σ Unit) := by
  unfold reportTo
  repeat' first
    | apply M.traceAll_pure balanced_traceProp
    | apply balanced_bracket
    | apply M.traceAll_bind balanced_traceProp
    | apply M.traceAll_deref balanced_traceProp
    | apply M.traceAll_deferred balanced_traceProp
    | apply M.traceAll_ite
    | (apply M.traceAll_emit; apply balanced_single <;> (intros; simp))
    | (apply M.traceAll_call; intro _; apply balanced_single <;> (intros; simp))
    | intro _
    | split
    | dsimp only

theorem ExecScriptVM_balanced (vm : Option VM) (n : VMName) :
    M.TraceAll Balanced (ExecScriptVM app req vm n) := by
  unfold ExecScriptVM
  repeat' first
    | apply M.traceAll_pure balanced_traceProp
    | apply balanced_bracket
    | apply M.traceAll_bind balanced_traceProp
    | apply M.traceAll_deref balanced_traceProp
    | apply M.traceAll_deferred balanced_traceProp
    | apply M.traceAll_ite
    | (apply M.traceAll_emit; apply balanced_single <;> (intros; simp))
    | (apply M.traceAll_call; intro _; apply balanced_single <;> (intros; simp))
    | intro _
    | split
    | dsimp only

theorem DoActionVM_balanced (vm : Option VM) (n : VMName) :
    M.TraceAll Balanced (DoActionVM app req vm n) := by
  unfold DoActionVM
  repeat' first
    | apply M.traceAll_pure balanced_traceProp
    | apply balanced_bracket
    | apply M.traceAll_bind balanced_traceProp
    | apply M.traceAll_deref balanced_traceProp
    | apply M.traceAll_deferred balanced_traceProp
    | apply M.traceAll_ite
    | (apply M.traceAll_emit; apply balanced_single <;> (intros; simp))
    | (apply M.traceAll_call; intro _; apply balanced_single <;> (intros; simp))
    | intro _
    | split
    | dsimp only

theorem RebuildVMv2_balanced (vm : Option VM) (n : VMName) :
    M.TraceAll Balanced (RebuildVMv2 app req vm n) := by
  unfold RebuildVMv2
  repeat' first
    | apply M.traceAll_pure balanced_traceProp
    | apply balanced_bracket
    | apply M.traceAll_bind balanced_traceProp
    | apply M.traceAll_deref balanced_traceProp
    | apply M.traceAll_deferred balanced_traceProp
    | apply M.traceAll_ite
    | (apply M.traceAll_emit; apply balanced_single <;> (intros; simp))
    | (apply M.traceAll_call; intro _; apply balanced_single <;> (intros; simp))
    | intro _
    | split
    | dsimp only

theorem RedefineVM_balanced (vm : Option VM) (active : Bool) :
    M.TraceAll Balanced (RedefineVM app req vm active) := by
  unfold RedefineVM RedefineVM.unlocked
  repeat' first
    | apply reAdd_balanced
    | apply M.traceAll_pure balanced_traceProp
    | apply balanced_bracket
    | apply M.traceAll_bind balanced_traceProp
    | apply M.traceAll_deref balanced_traceProp
    | apply M.traceAll_deferred balanced_traceProp
    | apply M.traceAll_ite
    | (apply M.traceAll_emit; apply balanced_single <;> (intros; simp))
    | (apply M.traceAll_call; intro _; apply balanced_single <;> (intros; simp))
    | intro _
    | split
    | dsimp only

theorem dispatch_balanced (entry : VMDatabaseEntry) (action : String) :
    M.TraceAll Balanced (ActionVMController.dispatch app req entry action) := by
  unfold ActionVMController.dispatch BackupVM
  repeat' first
    | apply reportTo_balanced
    | apply ExecScriptVM_balanced
    | apply DoActionVM_balanced
    | apply RebuildVMv2_balanced
    | apply RedefineVM_balanced
    | apply M.traceAll_pure balanced_traceProp
    | apply balanced_bracket
    | apply M.traceAll_bind balanced_traceProp
    | apply M.traceAll_deref balanced_traceProp
    | apply M.traceAll_deferred balanced_traceProp
    | apply M.traceAll_ite
    | (apply M.traceAll_emit; apply balanced_single <;> (intros; simp))
    | (apply M.traceAll_call; intro _; apply balanced_single <;> (intros; simp))
    | intro _
    | split
    | dsimp only

theorem ActionVMController_balanced : M.TraceAll Balanced (ActionVMController app req) := by
  unfold ActionVMController
  repeat' first
    | apply getEntryFromRequest_balanced
    | apply dispatch_balanced
    | apply M.traceAll_pure balanced_traceProp
    | apply balanced_bracket
    | apply M.traceAll_bind balanced_traceProp
    | apply M.traceAll_deref balanced_traceProp
    | apply M.traceAll_deferred balanced_traceProp
    | apply M.traceAll_ite
    | (apply M.traceAll_emit; apply balanced_single <;> (intros; simp))
    | (apply M.traceAll_call; intro _; apply balanced_single <;> (intros; simp))
    | intro _
    | split
    | dsimp only

theorem DeleteVMController_balanced : M.TraceAll Balanced (DeleteVMController app req) := by
  unfold DeleteVMController
  repeat' first
    | apply getEntryFromRequest_balanced
    | apply reportTo_balanced
    | apply M.traceAll_pure balanced_traceProp
    | apply balanced_bracket
    | apply M.traceAll_bind balanced_traceProp
    | apply M.traceAll_deref balanced_traceProp
    | apply M.traceAll_deferred balanced_traceProp
    | apply M.traceAll_ite
    | (apply M.traceAll_emit; apply balanced_single <;> (intros; simp))
    | (apply M.traceAll_call; intro _; apply balanced_single <;> (intros; simp))
    | intro _
    | split
    | dsimp only

end BalancedControllers

/-! ## Operation scoping: claim -/

/-- C8: for every request, every world and every behaviour of the
collaborators, the trace of `NewVMController`, of `ActionVMController` (whatever
the action, `exec` and an invalid action included) and of
`DeleteVMController` is operation-scoped, whether the controller returns or
panics: every `Operations.Remove` is applied to the handle returned by the
matching `Operations.Add`, none is left registered, and the numbers of `Add`
and `Remove` calls are equal. -/
theorem controllers_operations_scoped {σ : Type} (app : App σ) (req : Request) (w : σ) :
    OpsScoped (NewVMController app req w).trace ∧
    OpsScoped (ActionVMController app req w).trace ∧
    OpsScoped (DeleteVMController app req w).trace :=
  ⟨balanced_scoped ((NewVMController_balanced app req).all w),
   balanced_scoped ((ActionVMController_balanced app req).all w),
   balanced_scoped ((DeleteVMController_balanced app req).all w)⟩

/-- The `exec` action registers two operations, in `ActionVMController` and in
`ExecScriptVM`, and removes both, the inner one first. -/
theorem exec_registers_two_operations :
    (ActionVMController demoApp (demoRequest "web01" [("action", "exec")] "") 5).trace.filter
        (fun e => opsStep [] e != some [])
      = [Event.opAdd ⟨"alice", "exec", "vm", "web01"⟩ 5,
         Event.opAdd ⟨"alice", "exec", "vm", "web01"⟩ 6,
         Event.opRemove 6, Event.opRemove 5] := by
  decide

/-! ## Return values and quiet traces -/

theorem allEvents_traceProp (p : Event → Bool) : TraceProp (AllEvents p) where
  nil := ⟨fun _ h => by cases h⟩
  append := fun t1 t2 h1 h2 =>
    ⟨fun e he => (List.mem_append.mp he).elim (h1.all e) (h2.all e)⟩

theorem allEvents_single (p : Event → Bool) (e : Event) (h : p e = true) : AllEvents p [e] :=
  ⟨fun e' he => by rw [List.mem_singleton.mp he]; exact h⟩

theorem posts_eq_nil {t : List Event} (h : AllEvents (fun e => !isPost e) t) : posts t = [] := by
  rw [posts, List.filter_eq_nil_iff]
  intro e he
  simpa using h.all e he

theorem str_append_ne (a b : String) (h : a ≠ "") : a ++ b ≠ "" := by
  intro hab
  apply h
  have hl := congrArg String.length hab
  simp only [String.length_append] at hl
  have h0 : a.length = 0 := by
    have : ("" : String).length = 0 := rfl
    omega
  exact String.ext (List.length_eq_zero.mp h0)

theorem createResult_ok (vm : Option VM) : CreateResult (vm, none) :=
  fun _ h => by cases h

theorem createResult_fail (e : String) (h : e ≠ "") : CreateResult (none, some e) :=
  fun e' h' => by cases h'; exact ⟨h, rfl⟩

section
variable {σ α β : Type} {Q : α → Prop}

theorem M.returns_pure {a : α} (h : Q a) : M.Returns Q (pure a : M σ α) :=
  ⟨fun _ => ⟨a, rfl, h⟩⟩

theorem M.pure_bind (a : α) (f : α → M σ β) : (Pure.pure a >>= f : M σ β) = f a := by
  funext w
  rw [M.bind_run]
  rfl

theorem M.returns_skip (a : α) : M.Returns (fun _ => True) (Pure.pure a : M σ α) :=
  ⟨fun _ => ⟨a, rfl, trivial⟩⟩

theorem M.returns_bind {Q1 : α → Prop} {R : β → Prop} {m : M σ α} {f : α → M σ β}
    (hm : M.Returns Q1 m) (hf : ∀ a, Q1 a → M.Returns R (f a)) : M.Returns R (m >>= f) := by
  constructor
  intro w
  obtain ⟨a, ha, hq⟩ := hm.all w
  obtain ⟨b, hb, hr⟩ := (hf a hq).all (m w).world
  exact ⟨b, by rw [M.bind_run_ret m f w a ha]; exact hb, hr⟩

theorem M.returns_bind_any {R : β → Prop} {m : M σ α} {f : α → M σ β}
    (hm : M.Returns (fun _ => True) m) (hf : ∀ a, M.Returns R (f a)) :
    M.Returns R (m >>= f) :=
  M.returns_bind hm (fun a _ => hf a)

theorem M.returns_call (f : σ → α × σ) (ev : α → Event) :
    M.Returns (fun _ => True) (M.call f ev) :=
  ⟨fun _ => ⟨_, rfl, trivial⟩⟩

theorem M.returns_emit (e : Event) : M.Returns (fun _ => True) (M.emit e : M σ Unit) :=
  ⟨fun _ => ⟨_, rfl, trivial⟩⟩

theorem M.returns_deferred {c : M σ Unit} {b : M σ α}
    (hc : M.Returns (fun _ => True) c) (hb : M.Returns Q b) : M.Returns Q (M.deferred c b) := by
  constructor
  intro w
  obtain ⟨a, ha, hq⟩ := hb.all w
  obtain ⟨u, hu, -⟩ := hc.all (b w).world
  refine ⟨a, ?_, hq⟩
  unfold M.deferred
  rcases hbw : b w with ⟨o, w1, t1⟩
  rw [hbw] at ha hu
  simp only at ha hu ⊢
  rcases hcw : c w1 with ⟨o2, w2, t2⟩
  rw [hcw] at hu
  simp only at hu
  subst hu ha
  rfl

theorem M.returns_ite {c : Prop} [Decidable c] {a b : M σ α}
    (ha : M.Returns Q a) (hb : M.Returns Q b) : M.Returns Q (if c then a else b) := by
  split
  · exact ha
  · exact hb
end

/-! ## The controllers: lemmas -/

section ControllerLemmas

set_option linter.unusedTactic false
set_option linter.unreachableTactic false

variable {σ : Type} (app : App σ) (req : Request)

theorem VMControllerConfigCheck_returns :
    M.Returns (fun r => ∀ e, r = Except.error e → e ≠ "") (VMControllerConfigCheck app req) := by
  unfold VMControllerConfigCheck
  repeat' first
    | (apply M.returns_pure; intro e he; cases he; exact str_append_ne _ _ (by decide))
    | (apply M.returns_pure; intro e he; cases he;
       exact str_append_ne _ _ (str_append_ne _ _ (by decide)))
    | (apply M.returns_pure; intro e he; cases he)
    | apply M.returns_bind_any (M.returns_call _ _)
    | apply M.returns_ite
    | intro _
    | split
    | dsimp only

theorem cleanup_returns (backup : String) :
    M.Returns (fun _ => True) (NewVMController.cleanup app backup) := by
  unfold NewVMController.cleanup
  repeat' first
    | exact M.returns_skip _
    | exact M.returns_emit _
    | apply M.returns_bind_any (M.returns_call _ _)
    | intro _
    | split

theorem provision_returns (conf : VMConfig) (active allow : Bool) (lock : String) :
    M.Returns CreateResult (NewVMController.provision app req conf active allow lock) := by
  unfold NewVMController.provision
  repeat' first
    | exact M.returns_pure (createResult_ok _)
    | exact M.returns_pure (createResult_fail _ (str_append_ne _ _ (by decide)))
    | exact M.returns_skip _
    | exact M.returns_emit _
    | apply M.returns_bind_any (M.returns_call _ _)
    | apply M.returns_bind_any (M.returns_emit _)
    | rw [M.pure_bind]
    | apply M.returns_ite
    | intro _
    | split
    | dsimp only

theorem NewVMController_returns : M.Returns CreateResult (NewVMController app req) := by
  unfold NewVMController
  apply M.returns_bind_any (M.returns_emit _)
  intro _
  apply M.returns_bind (VMControllerConfigCheck_returns app req)
  intro checked hchecked
  split
  · rename_i err
    apply M.returns_bind_any (M.returns_emit _)
    intro _
    exact M.returns_pure (createResult_fail _ (hchecked err rfl))
  · repeat' first
      | exact provision_returns app req _ _ _ _
      | exact cleanup_returns app _
      | exact M.returns_pure (createResult_fail _ (str_append_ne _ _ (by decide)))
      | exact M.returns_pure (createResult_fail _ (by decide))
      | exact M.returns_skip _
      | exact M.returns_call _ _
      | exact M.returns_emit _
      | apply M.returns_deferred
      | apply M.returns_bind_any (M.returns_call _ _)
      | apply M.returns_bind_any (M.returns_emit _)
      | rw [M.pure_bind]
      | apply M.returns_ite
      | intro _
      | split
      | dsimp only

theorem NewVMController_no_post :
    M.TraceAll (AllEvents (fun e => !isPost e)) (NewVMController app req) := by
  unfold NewVMController NewVMController.provision NewVMController.cleanup
    VMControllerConfigCheck
  repeat' first
    | apply M.traceAll_pure (allEvents_traceProp _)
    | apply M.traceAll_bind (allEvents_traceProp _)
    | apply M.traceAll_deferred (allEvents_traceProp _)
    | apply M.traceAll_ite
    | (apply M.traceAll_emit; exact allEvents_single _ _ rfl)
    | (apply M.traceAll_call; intro _; exact allEvents_single _ _ rfl)
    | intro _
    | split
    | dsimp only

theorem VMControllerConfigCheck_quiet :
    M.TraceAll (AllEvents (fun e => !isSideEffect e)) (VMControllerConfigCheck app req) := by
  unfold VMControllerConfigCheck
  repeat' first
    | apply M.traceAll_pure (allEvents_traceProp _)
    | apply M.traceAll_bind (allEvents_traceProp _)
    | apply M.traceAll_ite
    | (apply M.traceAll_call; intro _; exact allEvents_single _ _ rfl)
    | intro _
    | split
    | dsimp only

theorem NewVMController_run_both_flags (w : σ) (conf : VMConfig) (filename : String)
    (hcheck : (VMControllerConfigCheck app req w).out = Outcome.ret (Except.ok (conf, filename)))
    (hr : req.FormValue "restore" ≠ "") (hrv : req.FormValue "restore-vm" ≠ "") :
    NewVMController app req w
      = ⟨Outcome.ret (none, some "restore and restore-vm flags are mutually exclusive"),
          (VMControllerConfigCheck app req w).world,
          Event.startStream :: ((VMControllerConfigCheck app req w).trace
            ++ [Event.stream StreamKind.trace, Event.stream StreamKind.failure])⟩ := by
  simp only [NewVMController, M.bind_run, M.emit, hcheck]
  simp [hr, hrv, M.bind_run, M.emit, M.pure_run]

theorem RebuildVMv2_locked (vm : VM) (vmName : VMName) (w : σ)
    (hl : vm.Locked = true) (hf : req.FormValue "force" ≠ app.TrueStr) :
    RebuildVMv2 app req (some vm) vmName w
      = ⟨Outcome.ret (some "VM is locked (see --force)"), w, []⟩ := by
  simp [RebuildVMv2, M.deref, M.bind_run, M.unit, M.pure_run, hl, hf]

theorem RebuildVMv2_forced (vm : VM) (vmName : VMName) (w : σ)
    (hf : req.FormValue "force" = app.TrueStr) :
    RebuildVMv2 app req (some vm) vmName w
      = ⟨Outcome.ret (app.VMRebuild vmName (decide (req.FormValue "lock" = app.TrueStr))
            req.APIKey.Comment w).1,
          (app.VMRebuild vmName (decide (req.FormValue "lock" = app.TrueStr))
            req.APIKey.Comment w).2,
          [Event.vmRebuild vmName (decide (req.FormValue "lock" = app.TrueStr))
            req.APIKey.Comment]⟩ := by
  simp [RebuildVMv2, M.deref, M.bind_run, M.unit, M.call, hf]

theorem RedefineVM_locked (vm : VM) (active : Bool) (w : σ)
    (hl : vm.Locked = true) (hf : req.FormValue "force" ≠ app.TrueStr) :
    RedefineVM app req (some vm) active w
      = ⟨Outcome.ret (vm, some "VM is locked (see --force)"), w, []⟩ := by
  simp [RedefineVM, M.deref, M.bind_run, M.unit, M.pure_run, hl, hf]

theorem RedefineVM_passes_lock (vm : VM) (active : Bool) (w : σ)
    (h : vm.Locked = false ∨ req.FormValue "force" = app.TrueStr) :
    RedefineVM app req (some vm) active w = RedefineVM.unlocked app req vm active w := by
  have hc : ¬ (vm.Locked = true ∧ req.FormValue "force" ≠ app.TrueStr) := by
    rintro ⟨h1, h2⟩
    rcases h with h | h
    · rw [h] at h1; cases h1
    · exact h2 h
  simp only [RedefineVM, M.deref, M.bind_run, M.unit, hc, if_false]
  simp

theorem RedefineVM_unlocked_wip (vm : VM) (active : Bool) (w : σ)
    (hw : vm.WIP ≠ app.VMOperationNone) :
    RedefineVM.unlocked app req vm active w
      = ⟨Outcome.ret (vm, some ("VM have a work in progress (" ++ vm.WIP ++ ")")), w, []⟩ := by
  simp [RedefineVM.unlocked, hw, M.pure_run]

theorem reAdd_run (l : List (Sigma (fun _ : String => VMDoAction))) (hl : l.NodupKeys)
    (acc : DoActionMap) (w : σ) :
    ∃ (r : DoActionMap) (t : List Event),
      (RedefineVM.reAdd l acc : M σ DoActionMap) w = ⟨Outcome.ret r, w, t⟩ ∧
      ∀ name, r.lookup name =
        match acc.lookup name with
        | some a => some a
        | none =>
          match l.dlookup name with
          | some a => if a.FromConfig = true then none else some a
          | none => none := by
  induction l generalizing acc with
  | nil => exact ⟨acc, [], rfl, fun name => by cases acc.lookup name <;> simp⟩
  | cons x rest ih =>
    obtain ⟨n, a⟩ := x
    have hrest : rest.NodupKeys := (List.nodupKeys_cons.mp hl).2
    have hn : List.dlookup n rest = none :=
      List.dlookup_eq_none.mpr (List.nodupKeys_cons.mp hl).1
    unfold RedefineVM.reAdd
    cases hf : a.FromConfig with
    | true =>
      obtain ⟨r, t, hr, hlook⟩ := ih hrest acc
      refine ⟨r, t, by simpa using hr, fun name => ?_⟩
      rw [hlook name]
      by_cases hname : name = n
      · subst hname
        simp [hn, hf]
      · simp [List.dlookup_cons_ne rest ⟨n, a⟩ hname]
    | false =>
      by_cases hmem : n ∈ acc
      · obtain ⟨r, t, hr, hlook⟩ := ih hrest acc
        refine ⟨r, Event.stream StreamKind.warning :: t, ?_, fun name => ?_⟩
        · simp only [hmem, if_true, Bool.false_eq_true, if_false, M.bind_run, M.emit, hr]
          rfl
        · rw [hlook name]
          by_cases hname : name = n
          · subst hname
            obtain ⟨b, hb⟩ := Option.isSome_iff_exists.mp (AList.lookup_isSome.mpr hmem)
            simp [hb]
          · simp [List.dlookup_cons_ne rest ⟨n, a⟩ hname]
      · obtain ⟨r, t, hr, hlook⟩ := ih hrest (acc.insert n a)
        refine ⟨r, t, by simpa [hmem] using hr, fun name => ?_⟩
        rw [hlook name]
        by_cases hname : name = n
        · subst hname
          simp [AList.lookup_insert, AList.lookup_eq_none.mpr hmem, hf]
        · simp [AList.lookup_insert_ne hname, List.dlookup_cons_ne rest ⟨n, a⟩ hname]

theorem RedefineVM_unlocked_ok (vm v' : VM) (active : Bool) (w : σ) (f : FormFile)
    (conf : VMConfig)
    (hfile : req.FormFile "config" = Except.ok f)
    (hconf : (app.NewVMConfigFromTomlReader f.Content w).1 = Except.ok conf)
    (hok : (RedefineVM.unlocked app req vm active w).out = Outcome.ret (v', none)) :
    vm.WIP = app.VMOperationNone ∧ conf.Name = vm.Config.Name ∧
    v'.AuthorKey = req.APIKey.Comment ∧
    (∀ name, v'.Config.DoActions.lookup name
      = mergedAction vm.Config.DoActions conf.DoActions name) := by
  unfold RedefineVM.unlocked at hok
  by_cases hw : vm.WIP = app.VMOperationNone
  swap
  · simp [hw, M.pure_run] at hok
  simp only [hw, ne_eq, not_true_eq_false, if_false, hfile, M.bind_run, M.emit, M.call,
    hconf] at hok
  by_cases hname : conf.Name = vm.Config.Name
  swap
  · simp [hname, M.pure_run] at hok
  simp only [hname, ne_eq, not_true_eq_false, if_false] at hok
  refine ⟨hw, hname, ?_⟩
  have tail : ∀ (w1 : σ) (t0 : List Event),
      (∃ (r : DoActionMap) (t : List Event),
        (RedefineVM.reAdd vm.Config.DoActions.entries conf.DoActions : M σ DoActionMap) w1
          = ⟨Outcome.ret r, w1, t⟩ ∧
        ∀ name, r.lookup name = mergedAction vm.Config.DoActions conf.DoActions name) :=
    fun w1 _ => by
      obtain ⟨r, t, hr, hlook⟩ :=
        reAdd_run vm.Config.DoActions.entries vm.Config.DoActions.nodupKeys conf.DoActions w1
      exact ⟨r, t, hr, fun name => by rw [hlook name]; rfl⟩
  cases active with
  | false =>
    obtain ⟨r, t, hr, hlook⟩ := tail (app.NewVMConfigFromTomlReader f.Content w).2 []
    simp only [Bool.false_eq_true, if_false, M.bind_run, M.pure_run, hr, M.call,
      Outcome.ret.injEq, Prod.mk.injEq, and_true] at hok
    subst hok
    exact ⟨rfl, hlook⟩
  | true =>
    simp only [if_true, M.bind_run, M.call] at hok
    cases hc : (app.CheckDomainsConflicts conf.Domains vm.Config.Name
        (app.NewVMConfigFromTomlReader f.Content w).2).1 with
    | some e => simp [hc, M.pure_run] at hok
    | none =>
      obtain ⟨r, t, hr, hlook⟩ := tail (app.CheckDomainsConflicts conf.Domains vm.Config.Name
        (app.NewVMConfigFromTomlReader f.Content w).2).2 []
      simp only [hc, M.bind_run, M.pure_run, hr, M.call,
        Outcome.ret.injEq, Prod.mk.injEq, and_true] at hok
      subst hok
      exact ⟨rfl, hlook⟩

end ControllerLemmas

/-! ## Creation, lock gating, redefinition: claims -/

/-- C4: when the config of a creation request passes `VMControllerConfigCheck`
and the form values `restore` and `restore-vm` are both non-empty,
`NewVMController` returns a nil VM and a non-nil error, and its trace holds no
`Operations.Add`, no `VMBackup`, no `NewVM` and no lock call. -/
theorem NewVMController_rejects_both_restore_flags {σ : Type} (app : App σ) (req : Request)
    (w : σ) (conf : VMConfig) (filename : String)
    (hcheck : (VMControllerConfigCheck app req w).out = Outcome.ret (Except.ok (conf, filename)))
    (hr : req.FormValue "restore" ≠ "") (hrv : req.FormValue "restore-vm" ≠ "") :
    (∃ e, (NewVMController app req w).out = Outcome.ret (none, some e)) ∧
    ∀ ev ∈ (NewVMController app req w).trace, isSideEffect ev = false := by
  rw [NewVMController_run_both_flags app req w conf filename hcheck hr hrv]
  refine ⟨⟨_, rfl⟩, ?_⟩
  intro ev hev
  simp only [List.mem_cons, List.mem_append, List.mem_singleton, List.not_mem_nil,
    or_false] at hev
  rcases hev with rfl | hev | rfl | rfl
  · rfl
  · simpa using (VMControllerConfigCheck_quiet app req).all w |>.all ev hev
  · rfl
  · rfl

/-- Witness of C4: the request with `restore=web01-backup`, `restore-vm=web01`
and the config `web02`. -/
theorem NewVMController_rejects_both_restore_flags_witness :
    (∃ e, (NewVMController demoApp
        (demoRequest "" [("restore", "web01-backup"), ("restore-vm", "web01")] "web02") 0).out
      = Outcome.ret (none, some e)) ∧
    ∀ ev ∈ (NewVMController demoApp
        (demoRequest "" [("restore", "web01-backup"), ("restore-vm", "web01")] "web02") 0).trace,
      isSideEffect ev = false :=
  NewVMController_rejects_both_restore_flags demoApp
    (demoRequest "" [("restore", "web01-backup"), ("restore-vm", "web01")] "web02") 0
    (demoConfig "web02" ∅) "vm.toml" rfl (by decide) (by decide)

/-- C5: for a locked VM. Without the force flag, `RebuildVMv2` and `RedefineVM`
return the error "VM is locked", call no collaborator (no `VMRebuild`, empty
trace, same world) and `RedefineVM` leaves the record as it was. With the force
flag, `RebuildVMv2` calls `VMRebuild` and returns its result, and `RedefineVM`
runs as the rest of the function after the lock check does. -/
theorem lock_gating {σ : Type} (app : App σ) (req : Request) (vm : VM) (vmName : VMName)
    (active : Bool) (w : σ) (hl : vm.Locked = true) :
    (req.FormValue "force" ≠ app.TrueStr →
      RebuildVMv2 app req (some vm) vmName w
        = ⟨Outcome.ret (some "VM is locked (see --force)"), w, []⟩ ∧
      RedefineVM app req (some vm) active w
        = ⟨Outcome.ret (vm, some "VM is locked (see --force)"), w, []⟩) ∧
    (req.FormValue "force" = app.TrueStr →
      (RebuildVMv2 app req (some vm) vmName w).out
        = Outcome.ret (app.VMRebuild vmName (decide (req.FormValue "lock" = app.TrueStr))
            req.APIKey.Comment w).1 ∧
      rebuilds (RebuildVMv2 app req (some vm) vmName w).trace
        = [Event.vmRebuild vmName (decide (req.FormValue "lock" = app.TrueStr))
            req.APIKey.Comment] ∧
      RedefineVM app req (some vm) active w = RedefineVM.unlocked app req vm active w) := by
  constructor
  · intro hf
    exact ⟨RebuildVMv2_locked app req vm vmName w hl hf, RedefineVM_locked app req vm active w hl hf⟩
  · intro hf
    rw [RebuildVMv2_forced app req vm vmName w hf]
    exact ⟨rfl, rfl, RedefineVM_passes_lock app req vm active w (Or.inr hf)⟩

/-- Witness of C5: the locked VM `web01`, without and with `force=true`. -/
theorem lock_gating_witness :
    (RebuildVMv2 demoApp (demoRequest "web01" [("action", "rebuild")] "web01")
        (some (demoVM (demoConfig "web01" ∅) true "")) ⟨"web01", 0⟩ 0
        = ⟨Outcome.ret (some "VM is locked (see --force)"), 0, []⟩ ∧
      RedefineVM demoApp (demoRequest "web01" [("action", "rebuild")] "web01")
        (some (demoVM (demoConfig "web01" ∅) true "")) true 0
        = ⟨Outcome.ret (demoVM (demoConfig "web01" ∅) true "",
            some "VM is locked (see --force)"), 0, []⟩) ∧
    rebuilds (RebuildVMv2 demoApp (demoRequest "web01" [("force", "true")] "web01")
        (some (demoVM (demoConfig "web01" ∅) true "")) ⟨"web01", 0⟩ 0).trace
      = [Event.vmRebuild ⟨"web01", 0⟩ false "alice"] :=
  ⟨(lock_gating demoApp (demoRequest "web01" [("action", "rebuild")] "web01")
      (demoVM (demoConfig "web01" ∅) true "") ⟨"web01", 0⟩ true 0 rfl).1 (by decide),
   ((lock_gating demoApp (demoRequest "web01" [("force", "true")] "web01")
      (demoVM (demoConfig "web01" ∅) true "") ⟨"web01", 0⟩ true 0 rfl).2 (by decide)).2.1⟩

/-- C6: for a VM whose WIP marker is not `VMOperationNone`, `RedefineVM` returns
an error whatever the force flag and the lock, calls no collaborator, and
leaves the record (its `Config` and `AuthorKey` among the rest) as it was. -/
theorem wip_gating {σ : Type} (app : App σ) (req : Request) (vm : VM) (active : Bool)
    (w : σ) (hw : vm.WIP ≠ app.VMOperationNone) :
    ∃ e, RedefineVM app req (some vm) active w = ⟨Outcome.ret (vm, some e), w, []⟩ := by
  by_cases hc : vm.Locked = true ∧ req.FormValue "force" ≠ app.TrueStr
  · exact ⟨_, RedefineVM_locked app req vm active w hc.1 hc.2⟩
  · have hp : vm.Locked = false ∨ req.FormValue "force" = app.TrueStr := by
      by_cases hf : req.FormValue "force" = app.TrueStr
      · exact Or.inr hf
      · left
        cases hlk : vm.Locked with
        | false => rfl
        | true => exact absurd ⟨hlk, hf⟩ hc
    rw [RedefineVM_passes_lock app req vm active w hp]
    exact ⟨_, RedefineVM_unlocked_wip app req vm active w hw⟩

/-- Witness of C6: the VM `web01` while it is rebuilding, with `force=true`. -/
theorem wip_gating_witness :
    ∃ e, RedefineVM demoApp (demoRequest "web01" [("force", "true")] "web01")
        (some (demoVM (demoConfig "web01" ∅) false "rebuilding")) true 0
      = ⟨Outcome.ret (demoVM (demoConfig "web01" ∅) false "rebuilding", some e), 0, []⟩ :=
  wip_gating demoApp (demoRequest "web01" [("force", "true")] "web01")
    (demoVM (demoConfig "web01" ∅) false "rebuilding") true 0 (by decide)

/-- C7: after a successful `RedefineVM`, with `O` the action map of the VM before
the call and `N` the action map of the config in the request, the action map
of the VM maps every name as `mergedAction O N` does: a name of `N` to the
definition of `N`, a name outside `N` that `O` defines with
`FromConfig == false` to the definition of `O`, and no other name; so its names
are those of `N` and those non-config-sourced names of `O` that are not in
`N`. -/
theorem RedefineVM_merges_actions {σ : Type} (app : App σ) (req : Request) (vm v' : VM)
    (active : Bool) (w : σ) (f : FormFile) (conf : VMConfig)
    (hfile : req.FormFile "config" = Except.ok f)
    (hconf : (app.NewVMConfigFromTomlReader f.Content w).1 = Except.ok conf)
    (hok : (RedefineVM app req (some vm) active w).out = Outcome.ret (v', none)) :
    (∀ name, v'.Config.DoActions.lookup name
      = mergedAction vm.Config.DoActions conf.DoActions name) ∧
    (∀ name, name ∈ v'.Config.DoActions ↔
      (name ∈ conf.DoActions ∨
        (name ∉ conf.DoActions ∧
          ∃ a, vm.Config.DoActions.lookup name = some a ∧ a.FromConfig = false))) := by
  have hun : (RedefineVM.unlocked app req vm active w).out = Outcome.ret (v', none) := by
    by_cases hc : vm.Locked = true ∧ req.FormValue "force" ≠ app.TrueStr
    · rw [RedefineVM_locked app req vm active w hc.1 hc.2] at hok
      simp at hok
    · have hp : vm.Locked = false ∨ req.FormValue "force" = app.TrueStr := by
        by_cases hf : req.FormValue "force" = app.TrueStr
        · exact Or.inr hf
        · left
          cases hlk : vm.Locked with
          | false => rfl
          | true => exact absurd ⟨hlk, hf⟩ hc
      rw [RedefineVM_passes_lock app req vm active w hp] at hok
      exact hok
  have hlook := (RedefineVM_unlocked_ok app req vm v' active w f conf hfile hconf hun).2.2.2
  refine ⟨hlook, fun name => ?_⟩
  rw [← AList.lookup_isSome, hlook name, ← AList.lookup_isSome]
  unfold mergedAction
  cases hN : AList.lookup name conf.DoActions with
  | some a => simp
  | none =>
    cases hO : AList.lookup name vm.Config.DoActions with
    | none => simp
    | some a => cases hfc : a.FromConfig <;> simp [hfc]

/-- Witness of C7: the old actions `a` and `b` (not config-sourced) redefined
with a config that defines `b`: the final actions are `a`, with its old
definition, and `b`, with the new one. -/
theorem RedefineVM_merges_actions_witness :
    (RedefineVM demoApp (demoRequest "web01" [("action", "redefine")] "web01+b")
        (some (demoVM (demoConfig "web01" demoOldActions) false "")) true 0).out
      = Outcome.ret ({ demoVM (demoConfig "web01"
            (demoNewActions.insert "a" (demoAction "a" "http://old/a" false))) false ""
          with AuthorKey := "alice" }, none) ∧
    mergedAction demoOldActions demoNewActions "a" = some (demoAction "a" "http://old/a" false) ∧
    mergedAction demoOldActions demoNewActions "b" = some (demoAction "b" "http://new/b" true) ∧
    ∀ name, name ∈ demoNewActions.insert "a" (demoAction "a" "http://old/a" false) ↔
      (name ∈ demoNewActions ∨
        (name ∉ demoNewActions ∧
          ∃ a, demoOldActions.lookup name = some a ∧ a.FromConfig = false)) :=
  ⟨rfl, by decide, by decide,
   (RedefineVM_merges_actions demoApp (demoRequest "web01" [("action", "redefine")] "web01+b")
      (demoVM (demoConfig "web01" demoOldActions) false "")
      { demoVM (demoConfig "web01"
          (demoNewActions.insert "a" (demoAction "a" "http://old/a" false))) false ""
        with AuthorKey := "alice" }
      true 0 ⟨"vm.toml", "web01+b"⟩ (demoConfig "web01" demoNewActions) rfl rfl rfl).2⟩

/-! ## Asynchronous creation: lemmas -/

section AsyncLemmas

variable {σ : Type} (app : App σ) (req : Request)

/-- An accepted request: the job started is the goroutine body for the callback
URL of the request, the URL is valid and the config check passed. -/
theorem NewVMAsyncController_accepted (w : σ) (job : M σ Unit)
    (hacc : (NewVMAsyncController app req w).out = Outcome.ret (some job)) :
    job = NewVMAsyncController.job app req (req.FormValue "callback_url") ∧
    app.ParseRequestURI (req.FormValue "callback_url") = none ∧
    ∃ conf filename,
      (VMControllerConfigCheck app req w).out = Outcome.ret (Except.ok (conf, filename)) := by
  unfold NewVMAsyncController at hacc
  cases hp : app.ParseRequestURI (req.FormValue "callback_url") with
  | some e => simp [hp, M.bind_run, M.emit, M.pure_run] at hacc
  | none =>
    obtain ⟨r, hr, -⟩ := (VMControllerConfigCheck_returns app req).all w
    simp only [hp, M.bind_run, hr] at hacc
    cases r with
    | error e => simp [M.bind_run, M.emit, M.pure_run] at hacc
    | ok c =>
      simp only [M.bind_run, M.emit, M.pure_run, Outcome.ret.injEq, Option.some.injEq] at hacc
      exact ⟨hacc.symm, rfl, c.1, c.2, hr⟩

/-- The run of the background job: it returns; its trace is the clock, the
trace of `NewVMController`, the clock, one post, and at most a log line. -/
theorem job_run (url : String) (w : σ) :
    ∃ (vm : Option VM) (err : Option String) (tl : List Event),
      (NewVMController app req (app.Now w).2).out = Outcome.ret (vm, err) ∧
      CreateResult (vm, err) ∧
      posts tl = [] ∧
      (NewVMAsyncController.job app req url w).out = Outcome.ret () ∧
      (NewVMAsyncController.job app req url w).trace
        = Event.now :: ((NewVMController app req (app.Now w).2).trace ++
            Event.now ::
            Event.postForm url
              ⟨"create", callbackTarget vm, err.isNone,
                (app.Now (NewVMController app req (app.Now w).2).world).1 - (app.Now w).1,
                err.getD ""⟩ :: tl) := by
  obtain ⟨⟨vm, err⟩, hr, hq⟩ := (NewVMController_returns app req).all (app.Now w).2
  refine ⟨vm, err,
    (match (app.PostForm url
        ⟨"create", callbackTarget vm, err.isNone,
          (app.Now (NewVMController app req (app.Now w).2).world).1 - (app.Now w).1,
          err.getD ""⟩
        (app.Now (NewVMController app req (app.Now w).2).world).2).1 with
      | none => []
      | some _ => [Event.log StreamKind.error]), hr, hq, ?_, ?_, ?_⟩
  · split <;> rfl
  · simp only [NewVMAsyncController.job, M.bind_run, M.call, hr]
    cases vm <;> cases err <;> simp only [callbackTarget, Option.isNone, Option.getD] <;>
      (generalize app.PostForm url _ _ = pr
       rcases pr with ⟨_ | e, w2⟩ <;> rfl)
  · simp only [NewVMAsyncController.job, M.bind_run, M.call, hr]
    cases vm <;> cases err <;> simp only [callbackTarget, Option.isNone, Option.getD] <;>
      (generalize app.PostForm url _ _ = pr
       rcases pr with ⟨_ | e, w2⟩ <;> simp [M.pure_run, M.emit])

end AsyncLemmas

/-! ## Asynchronous creation: claims -/

/-- The posts of the trace of the background job. -/
theorem job_posts {σ : Type} (app : App σ) (req : Request) (url : String) (w : σ)
    (data : AsyncCallback) (tl : List Event) (htl : posts tl = [])
    (ht : (NewVMAsyncController.job app req url w).trace
      = Event.now :: ((NewVMController app req (app.Now w).2).trace ++
          Event.now :: Event.postForm url data :: tl)) :
    posts (NewVMAsyncController.job app req url w).trace = [Event.postForm url data] := by
  have h0 := posts_eq_nil ((NewVMController_no_post app req).all (app.Now w).2)
  unfold posts at h0 htl ⊢
  rw [ht]
  simp [List.filter_cons, List.filter_append, isPost, h0, htl]

/-- C9: for every accepted asynchronous creation request and every world the
background job runs in, the job calls `NewVMController`, which returns, and
then posts exactly once, to the callback URL of the request, a report whose
action is "create", whose `Success` is true exactly when `NewVMController`
returned no error, and whose `Error`, when `NewVMController` failed, is the
message of the error, a non-empty string, with `Success` false. -/
theorem async_callback_contract {σ : Type} (app : App σ) (req : Request) (w : σ)
    (job : M σ Unit)
    (hacc : (NewVMAsyncController app req w).out = Outcome.ret (some job)) (w' : σ) :
    ∃ (vm : Option VM) (err : Option String) (data : AsyncCallback) (tl : List Event),
      (NewVMController app req (app.Now w').2).out = Outcome.ret (vm, err) ∧
      (job w').trace = Event.now :: ((NewVMController app req (app.Now w').2).trace ++
        Event.now :: Event.postForm (req.FormValue "callback_url") data :: tl) ∧
      posts (job w').trace = [Event.postForm (req.FormValue "callback_url") data] ∧
      data.Action = "create" ∧
      (data.Success = true ↔ err = none) ∧
      (∀ e, err = some e → data.Success = false ∧ data.Error = e ∧ e ≠ "") := by
  obtain ⟨hjob, -, -⟩ := NewVMAsyncController_accepted app req w job hacc
  subst hjob
  obtain ⟨vm, err, tl, hr, hq, htl, -, ht⟩ := job_run app req (req.FormValue "callback_url") w'
  refine ⟨vm, err, _, tl, hr, ht, job_posts app req _ w' _ tl htl ht, rfl, ?_, ?_⟩
  · cases err <;> simp
  · intro e he
    subst he
    exact ⟨rfl, rfl, (hq e rfl).1⟩

/-- Witness of C9: the creation of the VM `broken`, which the hypervisor fails
to provision, with the callback URL `http://cb.example/done`. -/
theorem async_callback_contract_witness :
    ∃ (vm : Option VM) (err : Option String) (data : AsyncCallback) (tl : List Event),
      (NewVMController demoApp
        (demoRequest "" [("callback_url", "http://cb.example/done")] "broken")
        (demoApp.Now 0).2).out = Outcome.ret (vm, err) ∧
      (NewVMAsyncController.job demoApp
          (demoRequest "" [("callback_url", "http://cb.example/done")] "broken")
          "http://cb.example/done" 0).trace
        = Event.now :: ((NewVMController demoApp
            (demoRequest "" [("callback_url", "http://cb.example/done")] "broken")
            (demoApp.Now 0).2).trace ++
          Event.now :: Event.postForm "http://cb.example/done" data :: tl) ∧
      posts (NewVMAsyncController.job demoApp
          (demoRequest "" [("callback_url", "http://cb.example/done")] "broken")
          "http://cb.example/done" 0).trace
        = [Event.postForm "http://cb.example/done" data] ∧
      data.Action = "create" ∧
      (data.Success = true ↔ err = none) ∧
      (∀ e, err = some e → data.Success = false ∧ data.Error = e ∧ e ≠ "") :=
  async_callback_contract demoApp
    (demoRequest "" [("callback_url", "http://cb.example/done")] "broken") 0
    (NewVMAsyncController.job demoApp
      (demoRequest "" [("callback_url", "http://cb.example/done")] "broken")
      "http://cb.example/done") rfl 0

/-- The failed provisioning of the example, evaluated: one post, `success`
false, the error message of `NewVMController`. -/
theorem async_failed_provisioning_post :
    posts (NewVMAsyncController.job demoApp
        (demoRequest "" [("callback_url", "http://cb.example/done")] "broken")
        "http://cb.example/done" 0).trace
      = [Event.postForm "http://cb.example/done"
          ⟨"create", "unknown", false, 0, "Cannot create VM: no space left"⟩] := by
  decide

/-- C10, as stated, fails: the config of the request parses, its name is
`web02`, and the creation fails afterwards on the mutually exclusive restore
flags; the report posted has the target `unknown`, not `web02`. The same holds
when the provisioning of the VM `broken` fails. -/
theorem async_target_unknown_after_name_known :
    ((VMControllerConfigCheck demoApp
        (demoRequest "" [("callback_url", "http://cb.example/done"),
          ("restore", "web01-backup"), ("restore-vm", "web01")] "web02") 0).out
      = Outcome.ret (Except.ok (demoConfig "web02" ∅, "vm.toml")) ∧
     (demoConfig "web02" ∅).Name = "web02" ∧
     posts (NewVMAsyncController.job demoApp
        (demoRequest "" [("callback_url", "http://cb.example/done"),
          ("restore", "web01-backup"), ("restore-vm", "web01")] "web02")
        "http://cb.example/done" 0).trace
      = [Event.postForm "http://cb.example/done"
          ⟨"create", "unknown", false, 0,
            "restore and restore-vm flags are mutually exclusive"⟩]) ∧
    ((VMControllerConfigCheck demoApp
        (demoRequest "" [("callback_url", "http://cb.example/done")] "broken") 0).out
      = Outcome.ret (Except.ok (demoConfig "broken" ∅, "vm.toml")) ∧
     posts (NewVMAsyncController.job demoApp
        (demoRequest "" [("callback_url", "http://cb.example/done")] "broken")
        "http://cb.example/done" 0).trace
      = [Event.postForm "http://cb.example/done"
          ⟨"create", "unknown", false, 0, "Cannot create VM: no space left"⟩]) :=
  ⟨⟨rfl, rfl, by decide⟩, ⟨rfl, by decide⟩⟩

/-- C10, amended: for every accepted asynchronous creation request, the target
of the report posted is the name in the config of the VM `NewVMController`
returned, when it returned one, and the placeholder `unknown` when it returned
none; whenever `NewVMController` returned an error it returned no VM, so the
target of every failed creation is `unknown`. -/
theorem async_callback_target {σ : Type} (app : App σ) (req : Request) (w : σ)
    (job : M σ Unit)
    (hacc : (NewVMAsyncController app req w).out = Outcome.ret (some job)) (w' : σ) :
    ∃ (vm : Option VM) (err : Option String) (data : AsyncCallback),
      (NewVMController app req (app.Now w').2).out = Outcome.ret (vm, err) ∧
      posts (job w').trace = [Event.postForm (req.FormValue "callback_url") data] ∧
      data.Target = callbackTarget vm ∧
      (∀ v, vm = some v → data.Target = v.Config.Name) ∧
      (vm = none → data.Target = "unknown") ∧
      (err ≠ none → data.Target = "unknown") := by
  obtain ⟨hjob, -, -⟩ := NewVMAsyncController_accepted app req w job hacc
  subst hjob
  obtain ⟨vm, err, tl, hr, hq, htl, -, ht⟩ := job_run app req (req.FormValue "callback_url") w'
  refine ⟨vm, err, _, hr, job_posts app req _ w' _ tl htl ht, rfl, ?_, ?_, ?_⟩
  · intro v hv; subst hv; rfl
  · intro hv; subst hv; rfl
  · intro he
    obtain ⟨e, rfl⟩ := Option.ne_none_iff_exists'.mp he
    have hv : vm = none := (hq e rfl).2
    subst hv; rfl

/-- Witness of C10 amended: the request with both restore flags and the config
`web02`. -/
theorem async_callback_target_witness :
    ∃ (vm : Option VM) (err : Option String) (data : AsyncCallback),
      (NewVMController demoApp
        (demoRequest "" [("callback_url", "http://cb.example/done"),
          ("restore", "web01-backup"), ("restore-vm", "web01")] "web02")
        (demoApp.Now 0).2).out = Outcome.ret (vm, err) ∧
      posts (NewVMAsyncController.job demoApp
          (demoRequest "" [("callback_url", "http://cb.example/done"),
            ("restore", "web01-backup"), ("restore-vm", "web01")] "web02")
          "http://cb.example/done" 0).trace
        = [Event.postForm "http://cb.example/done" data] ∧
      data.Target = callbackTarget vm ∧
      (∀ v, vm = some v → data.Target = v.Config.Name) ∧
      (vm = none → data.Target = "unknown") ∧
      (err ≠ none → data.Target = "unknown") :=
  async_callback_target demoApp
    (demoRequest "" [("callback_url", "http://cb.example/done"),
      ("restore", "web01-backup"), ("restore-vm", "web01")] "web02") 0
    (NewVMAsyncController.job demoApp
      (demoRequest "" [("callback_url", "http://cb.example/done"),
        ("restore", "web01-backup"), ("restore-vm", "web01")] "web02")
      "http://cb.example/done") rfl 0

/-! ## Entry resolution: lemmas -/

section EntryLemmas

set_option linter.unusedTactic false
set_option linter.unreachableTactic false

variable {σ : Type} (app : App σ) (req : Request)

theorem getEntryFromRequest_none (n : String) (w : σ)
    (hact : req.FormValue "action" = "activate")
    (hrev : req.FormValue "revision" = "none" ∨ req.FormValue "revision" = "-1") :
    getEntryFromRequest app n req w
      = ⟨(if (app.GetCountForName n w).1 = 0 then
            Outcome.ret (Except.error ("no " ++ n ++ " VM found in database"))
          else Outcome.ret (Except.ok ⟨⟨n, RevisionNone⟩, none, false⟩)),
          (app.GetCountForName n w).2, [Event.getCountForName n]⟩ := by
  simp only [getEntryFromRequest, hact, hrev, and_self, if_true, M.bind_run, M.call]
  split <;> simp [M.pure_run]

theorem getEntryFromRequest_revision (n : String) (w : σ)
    (h1 : req.FormValue "revision" ≠ "none") (h2 : req.FormValue "revision" ≠ "-1")
    (h3 : req.FormValue "revision" ≠ "") :
    getEntryFromRequest app n req w
      = (match app.Atoi (req.FormValue "revision") with
          | Except.error err => ⟨Outcome.ret (Except.error err), w, []⟩
          | Except.ok revision =>
            ⟨Outcome.ret (app.GetEntryByName ⟨n, revision⟩ w).1,
              (app.GetEntryByName ⟨n, revision⟩ w).2, [Event.getEntryByName ⟨n, revision⟩]⟩) := by
  simp only [getEntryFromRequest, h1, h2, h3, or_self, and_false, if_false, ne_eq,
    not_false_eq_true, if_true]
  cases app.Atoi (req.FormValue "revision") <;> rfl

theorem getEntryFromRequest_active (n : String) (w : σ)
    (h3 : req.FormValue "revision" = "") :
    getEntryFromRequest app n req w
      = ⟨Outcome.ret (app.GetActiveEntryByName n w).1, (app.GetActiveEntryByName n w).2,
          [Event.getActiveEntryByName n]⟩ := by
  simp [getEntryFromRequest, h3, M.call]

theorem getEntryFromRequest_no_activation (n : String) :
    M.TraceAll (AllEvents (fun e => !isSetActive e)) (getEntryFromRequest app n req) := by
  unfold getEntryFromRequest
  repeat' first
    | apply M.traceAll_pure (allEvents_traceProp _)
    | apply M.traceAll_bind (allEvents_traceProp _)
    | apply M.traceAll_ite
    | (apply M.traceAll_call; intro _; exact allEvents_single _ _ rfl)
    | intro _
    | split
    | dsimp only

theorem activations_eq_nil {t : List Event} (h : AllEvents (fun e => !isSetActive e) t) :
    activations t = [] := by
  rw [activations, List.filter_eq_nil_iff]
  intro e he
  simpa using h.all e he

theorem M.seq_run {α β : Type} (m : M σ α) (f : α → M σ β) (w : σ) :
    M.seq m f w = match (m w).out with
      | Outcome.ret a =>
        ⟨(f a (m w).world).out, (f a (m w).world).world,
          (m w).trace ++ (f a (m w).world).trace⟩
      | Outcome.panic msg => ⟨Outcome.panic msg, (m w).world, (m w).trace⟩ :=
  M.bind_run m f w

theorem dispatch_activate (entry : VMDatabaseEntry) :
    ActionVMController.dispatch app req entry "activate"
      = (do
          let err ← M.call (app.SetActiveRevision entry.Name.Name entry.Name.Revision)
            (fun _ => Event.setActiveRevision entry.Name.Name entry.Name.Revision)
          reportTo err
          return entry.VM) := by
  simp [ActionVMController.dispatch]

theorem ActionVMController_activate (w : σ) (entry : VMDatabaseEntry)
    (hn : req.SubPath ≠ "") (hact : req.FormValue "action" = "activate")
    (hentry : (getEntryFromRequest app req.SubPath req w).out = Outcome.ret (Except.ok entry)) :
    (ActionVMController app req w).out = Outcome.ret entry.VM ∧
    activations (ActionVMController app req w).trace
      = [Event.setActiveRevision entry.Name.Name entry.Name.Revision] := by
  have h0 := activations_eq_nil ((getEntryFromRequest_no_activation app req req.SubPath).all w)
  unfold activations at h0 ⊢
  have hdo : ("activate" : String) ≠ "do" := by decide
  simp only [ActionVMController, hn, if_false, M.bind_run, hentry, M.emit, hact,
    dispatch_activate, hdo, ne_eq, not_false_eq_true, if_true, M.pure_run,
    M.call, M.deferred, reportTo, M.seq_run]
  generalize app.SetActiveRevision _ _ _ = sr
  rcases sr with ⟨_ | e, w2⟩ <;>
    simp [M.emit, M.pure_run, M.bind_run, List.filter_append, List.filter_cons, isSetActive, h0]
end EntryLemmas

/-! ## Entry resolution: claim -/

/-- C11: entry resolution for `activate`. With the revision parameter `none`
or `-1`, `getEntryFromRequest` fails exactly when `GetCountForName(n)` is 0 and
otherwise returns the entry with the name `(n, RevisionNone)`, a nil VM and
`Active` false, and `ActionVMController` (on the non-empty sub-path `n`) calls
`SetActiveRevision(n, RevisionNone)` once. With any other non-empty revision
parameter it fails when `strconv.Atoi` fails, and otherwise returns the
exact-revision lookup of `(n, i)`, `i` the integer read, and when the registry
finds the entry of that name `ActionVMController` calls
`SetActiveRevision(n, i)` once. With an empty revision parameter it returns the
active-entry lookup of `n`. -/
theorem activate_entry_resolution {σ : Type} (app : App σ) (req : Request) (n : String)
    (w : σ) (hact : req.FormValue "action" = "activate") :
    ((req.FormValue "revision" = "none" ∨ req.FormValue "revision" = "-1") →
      ((∃ e, (getEntryFromRequest app n req w).out = Outcome.ret (Except.error e)) ↔
        (app.GetCountForName n w).1 = 0) ∧
      ((app.GetCountForName n w).1 ≠ 0 →
        (getEntryFromRequest app n req w).out
          = Outcome.ret (Except.ok ⟨⟨n, RevisionNone⟩, none, false⟩) ∧
        (req.SubPath = n → n ≠ "" →
          activations (ActionVMController app req w).trace
            = [Event.setActiveRevision n RevisionNone]))) ∧
    (req.FormValue "revision" ≠ "none" → req.FormValue "revision" ≠ "-1" →
      req.FormValue "revision" ≠ "" →
      (∀ e, app.Atoi (req.FormValue "revision") = Except.error e →
        (getEntryFromRequest app n req w).out = Outcome.ret (Except.error e)) ∧
      (∀ i, app.Atoi (req.FormValue "revision") = Except.ok i →
        (getEntryFromRequest app n req w).out
          = Outcome.ret (app.GetEntryByName ⟨n, i⟩ w).1 ∧
        (∀ entry, (app.GetEntryByName ⟨n, i⟩ w).1 = Except.ok entry →
          entry.Name = ⟨n, i⟩ → req.SubPath = n → n ≠ "" →
          activations (ActionVMController app req w).trace
            = [Event.setActiveRevision n i]))) ∧
    (req.FormValue "revision" = "" →
      (getEntryFromRequest app n req w).out
        = Outcome.ret (app.GetActiveEntryByName n w).1) := by
  refine ⟨fun hrev => ?_, fun h1 h2 h3 => ?_, fun h3 => ?_⟩
  · have hrun := getEntryFromRequest_none app req n w hact hrev
    constructor
    · rw [hrun]
      by_cases hc : (app.GetCountForName n w).1 = 0
      · simp [hc]
      · simp [hc]
    · intro hc
      have hout : (getEntryFromRequest app n req w).out
          = Outcome.ret (Except.ok ⟨⟨n, RevisionNone⟩, none, false⟩) := by
        rw [hrun]; simp [hc]
      refine ⟨hout, fun hsub hn => ?_⟩
      subst hsub
      exact (ActionVMController_activate app req w _ hn hact hout).2
  · have hrun := getEntryFromRequest_revision app req n w h1 h2 h3
    constructor
    · intro e he
      rw [hrun, he]
    · intro i hi
      have hout : (getEntryFromRequest app n req w).out
          = Outcome.ret (app.GetEntryByName ⟨n, i⟩ w).1 := by
        rw [hrun, hi]
      refine ⟨hout, fun entry hentry hname hsub hn => ?_⟩
      subst hsub
      rw [hentry] at hout
      have := (ActionVMController_activate app req w entry hn hact hout).2
      rw [hname] at this
      exact this
  · rw [getEntryFromRequest_active app req n w h3]

/-- Witness of C11: the deactivation of `web01`, which has two revisions. -/
theorem activate_entry_resolution_witness :
    (getEntryFromRequest demoAppRegistered "web01"
        (demoRequest "web01" [("action", "activate"), ("revision", "none")] "") 0).out
      = Outcome.ret (Except.ok ⟨⟨"web01", RevisionNone⟩, none, false⟩) ∧
    activations (ActionVMController demoAppRegistered
        (demoRequest "web01" [("action", "activate"), ("revision", "none")] "") 0).trace
      = [Event.setActiveRevision "web01" RevisionNone] :=
  ⟨(((activate_entry_resolution demoAppRegistered
        (demoRequest "web01" [("action", "activate"), ("revision", "none")] "") "web01" 0
        rfl).1 (Or.inl rfl)).2 (by decide)).1,
   (((activate_entry_resolution demoAppRegistered
        (demoRequest "web01" [("action", "activate"), ("revision", "none")] "") "web01" 0
        rfl).1 (Or.inl rfl)).2 (by decide)).2 rfl (by decide)⟩
/-! ## Redefinition: the two ways `RedefineVM` ends -/

section RedefineLemmas

variable {σ : Type} (app : App σ) (req : Request)

theorem RedefineVM_unlocked_cases (vm : VM) (active : Bool) (w : σ) :
    (∃ e, (RedefineVM.unlocked app req vm active w).out = Outcome.ret (vm, some e) ∧
      ∀ ev ∈ (RedefineVM.unlocked app req vm active w).trace, isUpdate ev = false) ∨
    (∃ v', (RedefineVM.unlocked app req vm active w).out = Outcome.ret (v', none) ∧
      Event.vmdbUpdate ∈ (RedefineVM.unlocked app req vm active w).trace) := by
  unfold RedefineVM.unlocked
  by_cases hw : vm.WIP = app.VMOperationNone
  swap
  · left
    simp [hw, M.pure_run]
  simp only [hw, ne_eq, not_true_eq_false, if_false]
  cases hfile : req.FormFile "config" with
  | error e =>
    left
    simp [M.pure_run]
  | ok f =>
    simp only [M.bind_run, M.emit, M.call]
    cases hconf : (app.NewVMConfigFromTomlReader f.Content w).1 with
    | error e =>
      left
      simp [M.pure_run, isUpdate]
    | ok conf =>
      simp only []
      by_cases hname : conf.Name = vm.Config.Name
      swap
      · left
        simp [hname, M.pure_run, isUpdate]
      simp only [hname, ne_eq, not_true_eq_false, if_false]
      cases active with
      | false =>
        right
        obtain ⟨r, t, hr, -⟩ := reAdd_run (σ := σ) vm.Config.DoActions.entries
          vm.Config.DoActions.nodupKeys conf.DoActions
          (app.NewVMConfigFromTomlReader f.Content w).2
        simp [M.bind_run, M.pure_run, hr, M.call]
      | true =>
        simp only [if_true, M.bind_run, M.call]
        cases hc : (app.CheckDomainsConflicts conf.Domains vm.Config.Name
            (app.NewVMConfigFromTomlReader f.Content w).2).1 with
        | some e =>
          left
          simp [M.pure_run, isUpdate]
        | none =>
          right
          obtain ⟨r, t, hr, -⟩ := reAdd_run (σ := σ) vm.Config.DoActions.entries
            vm.Config.DoActions.nodupKeys conf.DoActions
            (app.CheckDomainsConflicts conf.Domains vm.Config.Name
              (app.NewVMConfigFromTomlReader f.Content w).2).2
          simp [M.bind_run, M.pure_run, hr, M.call]

theorem RedefineVM_cases (vm : VM) (active : Bool) (w : σ) :
    (∃ e, (RedefineVM app req (some vm) active w).out = Outcome.ret (vm, some e) ∧
      ∀ ev ∈ (RedefineVM app req (some vm) active w).trace, isUpdate ev = false) ∨
    (∃ v', (RedefineVM app req (some vm) active w).out = Outcome.ret (v', none) ∧
      Event.vmdbUpdate ∈ (RedefineVM app req (some vm) active w).trace) := by
  by_cases hc : vm.Locked = true ∧ req.FormValue "force" ≠ app.TrueStr
  · left
    rw [RedefineVM_locked app req vm active w hc.1 hc.2]
    exact ⟨_, rfl, fun ev hev => by cases hev⟩
  · have hp : vm.Locked = false ∨ req.FormValue "force" = app.TrueStr := by
      by_cases hf : req.FormValue "force" = app.TrueStr
      · exact Or.inr hf
      · left
        cases hlk : vm.Locked with
        | false => rfl
        | true => exact absurd ⟨hlk, hf⟩ hc
    rw [RedefineVM_passes_lock app req vm active w hp]
    exact RedefineVM_unlocked_cases app req vm active w
end RedefineLemmas

/-! ## Redefinition: atomicity and the result of `VMDB.Update` -/

/-- C14: `RedefineVM` is atomic on failure. Whenever it returns a non-nil error,
the VM record is the record before the call (its `AuthorKey` and its `Config`,
action map included, are unchanged) and `VMDB.Update` has not been called. -/
theorem RedefineVM_atomic_on_failure {σ : Type} (app : App σ) (req : Request) (vm v' : VM)
    (active : Bool) (w : σ) (e : String)
    (herr : (RedefineVM app req (some vm) active w).out = Outcome.ret (v', some e)) :
    v' = vm ∧ v'.AuthorKey = vm.AuthorKey ∧ v'.Config = vm.Config ∧
    v'.Config.DoActions = vm.Config.DoActions ∧
    ∀ ev ∈ (RedefineVM app req (some vm) active w).trace, isUpdate ev = false := by
  rcases RedefineVM_cases app req vm active w with ⟨e', hout, hno⟩ | ⟨v'', hout, -⟩
  · rw [hout] at herr
    simp only [Outcome.ret.injEq, Prod.mk.injEq] at herr
    obtain ⟨rfl, -⟩ := herr
    exact ⟨rfl, rfl, rfl, rfl, hno⟩
  · rw [hout] at herr
    simp at herr

/-- Witness of C14: the redefinition of `web01` with a config named `web02`
fails, leaves the record as it was and does not call `VMDB.Update`. -/
theorem RedefineVM_atomic_on_failure_witness :
    (RedefineVM demoApp (demoRequest "web01" [("action", "redefine")] "web02")
        (some (demoVM (demoConfig "web01" demoOldActions) false "")) true 0).out
      = Outcome.ret (demoVM (demoConfig "web01" demoOldActions) false "",
          some "VM name does not match") ∧
    ∀ ev ∈ (RedefineVM demoApp (demoRequest "web01" [("action", "redefine")] "web02")
        (some (demoVM (demoConfig "web01" demoOldActions) false "")) true 0).trace,
      isUpdate ev = false :=
  ⟨rfl,
   (RedefineVM_atomic_on_failure demoApp
      (demoRequest "web01" [("action", "redefine")] "web02")
      (demoVM (demoConfig "web01" demoOldActions) false "")
      (demoVM (demoConfig "web01" demoOldActions) false "") true 0 "VM name does not match"
      rfl).2.2.2.2⟩

/-- C12, evaluated: `VMDB.Update` returns an error, and `RedefineVM`, which
calls it, returns a nil error; `ActionVMController` writes the success message
to the stream and no failure message. -/
theorem RedefineVM_drops_update_error :
    (demoAppUpdateFails.Update 0).1 = some "cannot write the database" ∧
    (RedefineVM demoAppUpdateFails (demoRequest "web01" [("action", "redefine")] "web01+b")
        (some (demoVM (demoConfig "web01" demoOldActions) false "")) true 0).out
      = Outcome.ret ({ demoVM (demoConfig "web01"
            (demoNewActions.insert "a" (demoAction "a" "http://old/a" false))) false ""
          with AuthorKey := "alice" }, none) ∧
    Event.vmdbUpdate ∈
      (RedefineVM demoAppUpdateFails (demoRequest "web01" [("action", "redefine")] "web01+b")
        (some (demoVM (demoConfig "web01" demoOldActions) false "")) true 0).trace ∧
    Event.vmdbUpdate ∈
      (ActionVMController demoAppUpdateFails
        (demoRequest "web01" [("action", "redefine")] "web01+b") 0).trace ∧
    Event.stream StreamKind.success ∈
      (ActionVMController demoAppUpdateFails
        (demoRequest "web01" [("action", "redefine")] "web01+b") 0).trace ∧
    Event.stream StreamKind.failure ∉
      (ActionVMController demoAppUpdateFails
        (demoRequest "web01" [("action", "redefine")] "web01+b") 0).trace := by
  refine ⟨rfl, rfl, ?_, ?_, ?_, ?_⟩ <;> decide

/-- C12, in general: whenever `RedefineVM` calls `VMDB.Update` it returns a nil
error, whatever `VMDB.Update` returned. -/
theorem RedefineVM_update_result_unused {σ : Type} (app : App σ) (req : Request) (vm : VM)
    (active : Bool) (w : σ)
    (hcall : Event.vmdbUpdate ∈ (RedefineVM app req (some vm) active w).trace) :
    ∃ v', (RedefineVM app req (some vm) active w).out = Outcome.ret (v', none) := by
  rcases RedefineVM_cases app req vm active w with ⟨e', -, hno⟩ | ⟨v'', hout, -⟩
  · have := hno _ hcall
    simp [isUpdate] at this
  · exact ⟨v'', hout⟩
/-! ## Transient backup: lemmas -/

section BackupLemmas

set_option linter.unusedTactic false
set_option linter.unreachableTactic false

variable {σ : Type} (app : App σ) (req : Request)

theorem M.deferred_run {α : Type} (c : M σ Unit) (b : M σ α) (w : σ) :
    M.deferred c b w
      = ⟨(match (c (b w).world).out with
          | Outcome.ret _ => (b w).out
          | Outcome.panic msg => Outcome.panic msg),
          (c (b w).world).world, (b w).trace ++ (c (b w).world).trace⟩ := by
  unfold M.deferred
  rcases b w with ⟨o, w1, t1⟩
  simp only
  rcases c w1 with ⟨o2, w2, t2⟩
  cases o2 <;> rfl

theorem cleanup_run (backup : String) (w : σ) :
    ∃ tl, NewVMController.cleanup app backup w
        = ⟨Outcome.ret (), (app.deleteBackup backup w).2, Event.deleteBackup backup :: tl⟩ ∧
      backupDeletions tl = [] := by
  simp only [NewVMController.cleanup, M.bind_run, M.call]
  generalize app.deleteBackup backup w = r
  rcases r with ⟨_ | e, w2⟩
  · exact ⟨[], rfl, rfl⟩
  · exact ⟨[Event.log StreamKind.error], rfl, rfl⟩

theorem provision_no_deletion (conf : VMConfig) (active allow : Bool) (lock : String) :
    M.TraceAll (AllEvents (fun e => !isDeleteBackup e))
      (NewVMController.provision app req conf active allow lock) := by
  unfold NewVMController.provision
  repeat' first
    | apply M.traceAll_pure (allEvents_traceProp _)
    | apply M.traceAll_bind (allEvents_traceProp _)
    | apply M.traceAll_ite
    | (apply M.traceAll_emit; exact allEvents_single _ _ rfl)
    | (apply M.traceAll_call; intro _; exact allEvents_single _ _ rfl)
    | intro _
    | split
    | dsimp only

theorem VMControllerConfigCheck_no_deletion :
    M.TraceAll (AllEvents (fun e => !isDeleteBackup e)) (VMControllerConfigCheck app req) := by
  unfold VMControllerConfigCheck
  repeat' first
    | apply M.traceAll_pure (allEvents_traceProp _)
    | apply M.traceAll_bind (allEvents_traceProp _)
    | apply M.traceAll_ite
    | (apply M.traceAll_call; intro _; exact allEvents_single _ _ rfl)
    | intro _
    | split
    | dsimp only

theorem backupDeletions_eq_nil {t : List Event}
    (h : AllEvents (fun e => !isDeleteBackup e) t) : backupDeletions t = [] := by
  rw [backupDeletions, List.filter_eq_nil_iff]
  intro e he
  simpa using h.all e he

theorem provision_starts (conf : VMConfig) (active allow : Bool) (lock : String) (w : σ) :
    ∃ rest, (NewVMController.provision app req conf active allow lock w).trace
      = Event.now :: Event.newVM conf active allow req.APIKey.Comment :: rest := by
  simp only [NewVMController.provision, M.bind_run, M.call]
  generalize app.NewVM conf active allow req.APIKey.Comment (app.Now w).2 = r
  rcases r with ⟨_ | ⟨vm, vmName⟩, w2⟩
  · exact ⟨_, rfl⟩
  · exact ⟨_, rfl⟩

theorem NewVMController_restoreVM_run (w : σ) (conf : VMConfig) (filename : String)
    (entry : VMDatabaseEntry) (b : String)
    (hcheck : (VMControllerConfigCheck app req w).out = Outcome.ret (Except.ok (conf, filename)))
    (hr : req.FormValue "restore" = "") (hrv : req.FormValue "restore-vm" ≠ "")
    (hentry : (NewVMController.sourceLookup app req conf w).1 = Except.ok entry)
    (hbackup : (NewVMController.sourceBackup app req conf entry w).1 = Except.ok b) :
    ∃ (h : Handle) (body : Run σ (Option VM × Option String)) (tl : List Event),
      body = NewVMController.provision app req { conf with RestoreBackup := b }
        (if req.FormValue "inactive" = app.TrueStr then false else true)
        (if req.FormValue "keep_on_failure" = app.TrueStr then true else false)
        (req.FormValue "lock") (NewVMController.sourceBackup app req conf entry w).2 ∧
      backupDeletions tl = [] ∧
      (NewVMController app req w).out = body.out ∧
      (NewVMController app req w).trace
        = Event.startStream :: ((VMControllerConfigCheck app req w).trace ++
            (Event.stream StreamKind.trace ::
             Event.opAdd ⟨req.APIKey.Comment, "create", "vm", conf.Name⟩ h ::
             Event.setTarget conf.Name ::
             Event.getActiveEntryByName (req.FormValue "restore-vm") ::
             Event.vmBackup entry.Name req.APIKey.Comment false ::
             (body.trace ++ Event.deleteBackup b :: (tl ++ [Event.opRemove h])))) := by
  unfold NewVMController.sourceBackup at hbackup ⊢
  unfold NewVMController.sourceLookup at hentry hbackup ⊢
  obtain ⟨tl, hcl, htl⟩ := cleanup_run app b
    (NewVMController.provision app req { conf with RestoreBackup := b }
      (if req.FormValue "inactive" = app.TrueStr then false else true)
      (if req.FormValue "keep_on_failure" = app.TrueStr then true else false)
      (req.FormValue "lock")
      (app.VMBackup entry.Name req.APIKey.Comment false
        (app.GetActiveEntryByName (req.FormValue "restore-vm")
          (app.OperationsAdd ⟨req.APIKey.Comment, "create", "vm", conf.Name⟩
            (VMControllerConfigCheck app req w).world).2).2).2).world
  refine ⟨(app.OperationsAdd ⟨req.APIKey.Comment, "create", "vm", conf.Name⟩
    (VMControllerConfigCheck app req w).world).1, _, tl, rfl, htl, ?_, ?_⟩
  · simp only [NewVMController, M.bind_run, M.emit, hcheck, hr, hrv, M.call, hentry, hbackup,
      M.deferred_run, M.pure_run, hcl, ne_eq, not_true_eq_false, false_and, if_false,
      not_false_eq_true, if_true]
  · simp only [NewVMController, M.bind_run, M.emit, hcheck, hr, hrv, M.call, hentry, hbackup,
      M.deferred_run, M.pure_run, hcl, ne_eq, not_true_eq_false, false_and, if_false,
      not_false_eq_true, if_true]
    simp
end BackupLemmas

/-! ## Transient backup: claim -/

/-- C13: transient backup cleanup. For a creation request whose config check
passes, with an empty `restore` and a non-empty `restore-vm`, whose source VM
is found and whose `VMBackup` succeeds with the backup `b`: `NewVMController`
calls `deleteBackup` exactly once, on `b`, after the call of `NewVM` (whatever
`NewVM` returns), and what it returns does not depend on `deleteBackup`: it is
the same with any other behaviour `d` of `deleteBackup`. -/
theorem transient_backup_cleanup {σ : Type} (app : App σ) (req : Request) (w : σ)
    (conf : VMConfig) (filename : String) (entry : VMDatabaseEntry) (b : String)
    (hcheck : (VMControllerConfigCheck app req w).out = Outcome.ret (Except.ok (conf, filename)))
    (hr : req.FormValue "restore" = "") (hrv : req.FormValue "restore-vm" ≠ "")
    (hentry : (NewVMController.sourceLookup app req conf w).1 = Except.ok entry)
    (hbackup : (NewVMController.sourceBackup app req conf entry w).1 = Except.ok b) :
    backupDeletions (NewVMController app req w).trace = [Event.deleteBackup b] ∧
    (∃ pre mid post, (NewVMController app req w).trace
      = pre ++ Event.newVM { conf with RestoreBackup := b }
          (if req.FormValue "inactive" = app.TrueStr then false else true)
          (if req.FormValue "keep_on_failure" = app.TrueStr then true else false)
          req.APIKey.Comment :: (mid ++ Event.deleteBackup b :: post)) ∧
    (∀ d : String → σ → Option String × σ,
      (NewVMController { app with deleteBackup := d } req w).out
        = (NewVMController app req w).out) := by
  obtain ⟨h, body, tl, hbody, htl, hout, htrace⟩ :=
    NewVMController_restoreVM_run app req w conf filename entry b hcheck hr hrv hentry hbackup
  have h1 := backupDeletions_eq_nil ((VMControllerConfigCheck_no_deletion app req).all w)
  have h2 : backupDeletions body.trace = [] := by
    rw [hbody]
    exact backupDeletions_eq_nil ((provision_no_deletion app req _ _ _ _).all _)
  obtain ⟨rest, hrest⟩ := provision_starts app req { conf with RestoreBackup := b }
    (if req.FormValue "inactive" = app.TrueStr then false else true)
    (if req.FormValue "keep_on_failure" = app.TrueStr then true else false)
    (req.FormValue "lock") (NewVMController.sourceBackup app req conf entry w).2
  rw [← hbody] at hrest
  refine ⟨?_, ?_, fun d => ?_⟩
  · unfold backupDeletions at h1 h2 htl ⊢
    rw [htrace]
    simp [List.filter_cons, List.filter_append, isDeleteBackup, h1, h2, htl]
  · refine ⟨Event.startStream :: ((VMControllerConfigCheck app req w).trace ++
        [Event.stream StreamKind.trace,
         Event.opAdd ⟨req.APIKey.Comment, "create", "vm", conf.Name⟩ h,
         Event.setTarget conf.Name,
         Event.getActiveEntryByName (req.FormValue "restore-vm"),
         Event.vmBackup entry.Name req.APIKey.Comment false, Event.now]),
      rest, tl ++ [Event.opRemove h], ?_⟩
    rw [htrace, hrest]
    simp
  · obtain ⟨h', body', tl', hbody', -, hout', -⟩ :=
      NewVMController_restoreVM_run { app with deleteBackup := d } req w conf filename entry b
        hcheck hr hrv hentry hbackup
    rw [hout', hout, hbody', hbody]
    rfl

/-- Witness of C13: the creation of `web02` from a fresh backup of `web01`. -/
theorem transient_backup_cleanup_witness :
    backupDeletions (NewVMController demoApp
        (demoRequest "" [("restore-vm", "web01")] "web02") 0).trace
      = [Event.deleteBackup "web01-backup"] ∧
    (NewVMController demoAppDeleteFails
        (demoRequest "" [("restore-vm", "web01")] "web02") 0).out
      = (NewVMController demoApp (demoRequest "" [("restore-vm", "web01")] "web02") 0).out :=
  ⟨(transient_backup_cleanup demoApp (demoRequest "" [("restore-vm", "web01")] "web02") 0
      (demoConfig "web02" ∅) "vm.toml"
      ⟨⟨"web01", 0⟩, some (demoVM (demoConfig "web01" demoOldActions) false ""), true⟩
      "web01-backup" rfl rfl (by decide) rfl rfl).1,
   (transient_backup_cleanup demoApp (demoRequest "" [("restore-vm", "web01")] "web02") 0
      (demoConfig "web02" ∅) "vm.toml"
      ⟨⟨"web01", 0⟩, some (demoVM (demoConfig "web01" demoOldActions) false ""), true⟩
      "web01-backup" rfl rfl (by decide) rfl rfl).2.2 (fun _ w => (some "volume is busy", w))⟩
/-! ## Entries with a nil VM: lemmas -/

section NilVMLemmas

variable {σ : Type} (app : App σ) (req : Request)

theorem getEntryFromRequest_nil_VM (n : String) (w : σ) (entry : VMDatabaseEntry)
    (hreg : ∀ name w' e, (app.GetEntryByName name w').1 = Except.ok e → e.VM ≠ none)
    (hact : ∀ name w' e, (app.GetActiveEntryByName name w').1 = Except.ok e → e.VM ≠ none)
    (hentry : (getEntryFromRequest app n req w).out = Outcome.ret (Except.ok entry))
    (hnil : entry.VM = none) :
    req.FormValue "action" = "activate" ∧
    (req.FormValue "revision" = "none" ∨ req.FormValue "revision" = "-1") := by
  by_cases hc : req.FormValue "action" = "activate" ∧
      (req.FormValue "revision" = "none" ∨ req.FormValue "revision" = "-1")
  · exact hc
  · exfalso
    by_cases h3 : req.FormValue "revision" = ""
    · rw [getEntryFromRequest_active app req n w h3] at hentry
      simp only [Outcome.ret.injEq] at hentry
      exact hact _ _ _ hentry hnil
    · simp only [getEntryFromRequest, hc, if_false, h3, ne_eq, not_false_eq_true, if_true]
        at hentry
      cases ha : app.Atoi (req.FormValue "revision") with
      | error e => simp [ha, M.pure_run] at hentry
      | ok i =>
        simp only [ha, M.call, Outcome.ret.injEq] at hentry
        exact hreg _ _ _ hentry hnil

theorem GetVMConfigController_nil_VM (w : σ) (entry : VMDatabaseEntry)
    (hn : req.SubPath ≠ "")
    (hentry : (getEntryFromRequest app req.SubPath req w).out = Outcome.ret (Except.ok entry))
    (hnil : entry.VM = none) :
    (GetVMConfigController app req w).out
      = Outcome.panic "invalid memory address or nil pointer dereference" := by
  simp [GetVMConfigController, hn, M.bind_run, hentry, M.emit, hnil, M.deref, M.panic]

theorem GetVMDoActionsController_nil_VM (lib : InfoApp σ) (w : σ) (entry : VMDatabaseEntry)
    (hn : req.SubPath ≠ "")
    (hentry : (getEntryFromRequest app req.SubPath req w).out = Outcome.ret (Except.ok entry))
    (hnil : entry.VM = none) :
    (GetVMDoActionsController app lib req w).out
      = Outcome.panic "invalid memory address or nil pointer dereference" := by
  simp [GetVMDoActionsController, hn, M.bind_run, hentry, M.emit, hnil, M.deref, M.panic]

theorem GetVMInfosController_nil_VM (lib : InfoApp σ) (w : σ) (entry : VMDatabaseEntry)
    (disk : String) (infos : VolumeInfos)
    (hn : req.SubPath ≠ "")
    (hentry : (getEntryFromRequest app req.SubPath req w).out = Outcome.ret (Except.ok entry))
    (hnil : entry.VM = none)
    (hdisk : (lib.VMGetDiskName entry.Name
      (app.VMIsRunning entry.Name (getEntryFromRequest app req.SubPath req w).world).2).1
        = Except.ok disk)
    (hvol : (lib.VolumeInfos disk (lib.VMGetDiskName entry.Name
      (app.VMIsRunning entry.Name (getEntryFromRequest app req.SubPath req w).world).2).2).1
        = Except.ok infos) :
    (GetVMInfosController app lib req w).out
      = Outcome.panic "invalid memory address or nil pointer dereference" := by
  simp [GetVMInfosController, hn, M.bind_run, hentry, M.emit, M.call, hdisk, hvol, hnil,
    M.deref, M.panic]

theorem ActionVMController_nil_VM (w : σ) (entry : VMDatabaseEntry)
    (hreg : ∀ name w' e, (app.GetEntryByName name w').1 = Except.ok e → e.VM ≠ none)
    (hact : ∀ name w' e, (app.GetActiveEntryByName name w').1 = Except.ok e → e.VM ≠ none)
    (hn : req.SubPath ≠ "")
    (hentry : (getEntryFromRequest app req.SubPath req w).out = Outcome.ret (Except.ok entry))
    (hnil : entry.VM = none) :
    (ActionVMController app req w).out = Outcome.ret none := by
  have h := getEntryFromRequest_nil_VM app req req.SubPath w entry hreg hact hentry hnil
  rw [(ActionVMController_activate app req w entry hn h.1 hentry).1, hnil]
end NilVMLemmas

/-! ## Entries with a nil VM: the controllers that read through them -/

/-- C15, evaluated: with two revisions of `web01` registered, the form values
`action=activate` and `revision=none` make `getEntryFromRequest` return the
entry with a nil VM; `GetVMConfigController`, `GetVMInfosController` and
`GetVMDoActionsController` then read a field of `entry.VM` and panic on the nil
pointer, while `ActionVMController` returns without reading it. -/
theorem info_controllers_read_nil_VM :
    (getEntryFromRequest demoAppRegistered "web01"
        (demoRequest "web01" [("action", "activate"), ("revision", "none")] "") 0).out
      = Outcome.ret (Except.ok ⟨⟨"web01", RevisionNone⟩, none, false⟩) ∧
    (GetVMConfigController demoAppRegistered
        (demoRequest "web01" [("action", "activate"), ("revision", "none")] "") 0).out
      = Outcome.panic "invalid memory address or nil pointer dereference" ∧
    (GetVMInfosController demoAppRegistered demoInfo
        (demoRequest "web01" [("action", "activate"), ("revision", "none")] "") 0).out
      = Outcome.panic "invalid memory address or nil pointer dereference" ∧
    (GetVMDoActionsController demoAppRegistered demoInfo
        (demoRequest "web01" [("action", "activate"), ("revision", "none")] "") 0).out
      = Outcome.panic "invalid memory address or nil pointer dereference" ∧
    (ActionVMController demoAppRegistered
        (demoRequest "web01" [("action", "activate"), ("revision", "none")] "") 0).out
      = Outcome.ret none :=
  ⟨rfl, rfl, rfl, rfl, rfl⟩
end Mulch
